import Mathlib

/-!
Shallow embedding of the intelligent-routing core of the `moltbot_clipai`
repository: the rule-based intent classifier (`intent-classifier.ts`),
the tier registry (`model-tiers.ts`), the tier-aware prompt adapter
(`prompt-adapter.ts`) and the router (`intelligent-router.ts`), together
with theorems settling the frozen claims about them.

Strings are modelled as `List Char`; JavaScript regular expressions are
translated into executable character-list scanners that mirror the
pattern's matching semantics for the pattern's character classes.
Unicode case mapping is modelled on the ASCII range (all patterns in the
source are ASCII); `String.length` counts scalar code points where the
JavaScript source counts UTF-16 units (the two agree on the Basic
Multilingual Plane inputs treated here).  Money amounts and confidence
scores (JavaScript `number`) are modelled as exact rationals `ℚ`.
-/

set_option maxRecDepth 8000

namespace MoltbotClipai

/-! ### Character classes

`isJsSpace` models the JavaScript `\s` class (also the set trimmed by
`String.prototype.trim`); `isLineTerm` models the characters the `.`
metacharacter does not match; `isWordChar` models `\w`. -/

def isJsSpace (c : Char) : Bool :=
  c.toNat = 32 || c.toNat = 9 || c.toNat = 10 || c.toNat = 11 || c.toNat = 12 ||
  c.toNat = 13 || c.toNat = 0xA0 || c.toNat = 0x1680 ||
  (0x2000 ≤ c.toNat && c.toNat ≤ 0x200A) ||
  c.toNat = 0x2028 || c.toNat = 0x2029 || c.toNat = 0x202F || c.toNat = 0x205F ||
  c.toNat = 0x3000 || c.toNat = 0xFEFF

def isLineTerm (c : Char) : Bool :=
  c.toNat = 10 || c.toNat = 13 || c.toNat = 0x2028 || c.toNat = 0x2029

def isWordChar (c : Char) : Bool :=
  c.isAlphanum || c = '_'

/-- An ASCII digit `0`–`9`. -/
def isAsciiDigit (c : Char) : Bool :=
  48 ≤ c.toNat && c.toNat ≤ 57

/-- Lowercasing used to model the `/i` regex flag (ASCII case folding;
the source patterns only contain ASCII letters). -/
def lowerL (l : List Char) : List Char := l.map Char.toLower

/-- Drop trailing characters satisfying `p`. -/
def dropTrailWhile (p : Char → Bool) (l : List Char) : List Char :=
  (l.reverse.dropWhile p).reverse

/-- JavaScript `String.prototype.trim`. -/
def trimL (l : List Char) : List Char :=
  dropTrailWhile isJsSpace (l.dropWhile isJsSpace)

/-- JavaScript `String.prototype.trimEnd`. -/
def trimEndL (l : List Char) : List Char :=
  dropTrailWhile isJsSpace l

/-- The characters of a string literal. -/
def wchars (s : String) : List Char := s.data

/-! ### The Unicode `Emoji` property

Models `\p{Emoji}` (UTS #51 `emoji-data.txt`) over the code points that
can appear in the messages treated here.  The ASCII range is exact:
`#`, `*` and the digits `0`–`9` carry the property, no other ASCII
character does.  Above ASCII the principal emoji blocks are included. -/

def isEmojiChar (c : Char) : Bool :=
  let n := c.toNat
  n = 0x23 || n = 0x2A || (0x30 ≤ n && n ≤ 0x39) ||
  n = 0xA9 || n = 0xAE ||
  n = 0x203C || n = 0x2049 || n = 0x2122 || n = 0x2139 ||
  (0x2194 ≤ n && n ≤ 0x21AA) ||
  (0x231A ≤ n && n ≤ 0x231B) || n = 0x2328 || n = 0x23CF ||
  (0x23E9 ≤ n && n ≤ 0x23FA) || n = 0x24C2 ||
  (0x25AA ≤ n && n ≤ 0x25FE) ||
  (0x2600 ≤ n && n ≤ 0x27BF) ||
  (0x2934 ≤ n && n ≤ 0x2935) ||
  (0x2B05 ≤ n && n ≤ 0x2B07) || (0x2B1B ≤ n && n ≤ 0x2B1C) ||
  n = 0x2B50 || n = 0x2B55 || n = 0x3030 || n = 0x303D ||
  n = 0x3297 || n = 0x3299 ||
  (0x1F000 ≤ n && n ≤ 0x1FAFF)

/-! ### Generic scanners for the source's regular expressions

`seqMatch` matches a sequence of literal words separated by `\s+`
(greedy whitespace runs are exact here because no word starts with a
whitespace character); `scanWords` searches a string for any of a list
of such sequences delimited by `\b` word boundaries; `scanSeqPlain`
searches without boundary requirements. -/

def nonWordOpt : Option Char → Bool
  | none => true
  | some c => !isWordChar c

def seqMatch : List (List Char) → List Char → Option (List Char)
  | [], l => some l
  | w :: ws, l =>
    if w.isPrefixOf l then
      let r := l.drop w.length
      match ws with
      | [] => some r
      | _ :: _ =>
        let sp := r.takeWhile isJsSpace
        if sp.length = 0 then none else seqMatch ws (r.drop sp.length)
    else none

def tryWordsAt (prev : Option Char) (l : List Char)
    (vs : List (List (List Char))) : Bool :=
  nonWordOpt prev &&
    vs.any (fun v =>
      match seqMatch v l with
      | some r => nonWordOpt r.head?
      | none => false)

def scanWords : Option Char → List Char → List (List (List Char)) → Bool
  | prev, [], vs => tryWordsAt prev [] vs
  | prev, c :: rest, vs => tryWordsAt prev (c :: rest) vs || scanWords (some c) rest vs

/-- Search for any of the word sequences, `\b`-delimited (e.g.
`/\bcode\s+review\b/`). -/
def hasSpacedWords (l : List Char) (vs : List (List (List Char))) : Bool :=
  scanWords none l vs

def tryPlainAt (l : List Char) (vs : List (List (List Char))) : Bool :=
  vs.any (fun v => (seqMatch v l).isSome)

def scanSeqPlain : List Char → List (List (List Char)) → Bool
  | [], vs => tryPlainAt [] vs
  | c :: rest, vs => tryPlainAt (c :: rest) vs || scanSeqPlain rest vs

/-- Plain substring search for `lit`. -/
def containsLit (l lit : List Char) : Bool :=
  scanSeqPlain l [[lit]]

/-! ### Patterns of `intent-classifier.ts` -/

/-- `/^\/model\s+(opus|sonnet|haiku|gpt|gemini|qwen|llama)/i` -/
def explicitPat1 (t : List Char) : Bool :=
  match lowerL t with
  | c :: rest =>
    decide (c = '/') &&
      ((wchars "model").isPrefixOf rest &&
        (let r := rest.drop 5
         let sp := r.takeWhile isJsSpace
         decide (1 ≤ sp.length) &&
           ([wchars "opus", wchars "sonnet", wchars "haiku", wchars "gpt",
             wchars "gemini", wchars "qwen", wchars "llama"].any
              (fun w => w.isPrefixOf (r.drop sp.length)))))
  | [] => false

/-- `/\buse\s+(opus|sonnet|gpt-?4|claude)\b/i` -/
def explicitPat2 (t : List Char) : Bool :=
  hasSpacedWords (lowerL t)
    [[wchars "use", wchars "opus"], [wchars "use", wchars "sonnet"],
     [wchars "use", wchars "gpt4"], [wchars "use", wchars "gpt-4"],
     [wchars "use", wchars "claude"]]

/-- `/\bswitch\s+to\s+(opus|sonnet|haiku)\b/i` -/
def explicitPat3 (t : List Char) : Bool :=
  hasSpacedWords (lowerL t)
    [[wchars "switch", wchars "to", wchars "opus"],
     [wchars "switch", wchars "to", wchars "sonnet"],
     [wchars "switch", wchars "to", wchars "haiku"]]

/-- `EXPLICIT_MODEL_PATTERNS.some(p => p.test(trimmed))` -/
def explicitMatch (t : List Char) : Bool :=
  explicitPat1 t || explicitPat2 t || explicitPat3 t

def greetingWords : List String :=
  ["hi", "hey", "hello", "yo", "sup", "gm", "gn", "morning", "night",
   "thanks", "thx", "ty", "ok", "okay", "k", "yep", "yup", "nah", "nope",
   "lol", "haha", "lmao", "brb", "gtg", "bye", "cya"]

def yesNoWords : List String := ["yes", "no", "y", "n", "sure", "nah"]

/-- `/^(w1|w2|...)\s*[.!?]*$/i`: one of the words, then optional
whitespace, then optional `.`/`!`/`?` runs, anchored at both ends. -/
def anchoredWordPunct (t : List Char) (wordsL : List String) : Bool :=
  let lw := lowerL t
  wordsL.any (fun w =>
    w.data.isPrefixOf lw &&
      ((lw.drop w.data.length).dropWhile isJsSpace).all
        (fun c => c = '.' || c = '!' || c = '?'))

/-- `/^[\p{Emoji}\s]+$/u` -/
def emojiOnly (t : List Char) : Bool :=
  !t.isEmpty && t.all (fun c => isEmojiChar c || isJsSpace c)

/-- `/^[👍👎❤️🔥💯✅🙏😂💀🤔]+$/u` (the heart is the two code points
U+2764 U+FE0F; a character class matches either element) -/
def emojiClassOnly (t : List Char) : Bool :=
  !t.isEmpty && t.all (fun c =>
    let n := c.toNat
    n = 0x1F44D || n = 0x1F44E || n = 0x2764 || n = 0xFE0F || n = 0x1F525 ||
    n = 0x1F4AF || n = 0x2705 || n = 0x1F64F || n = 0x1F602 || n = 0x1F480 ||
    n = 0x1F914)

/-- `TRIVIAL_PATTERNS.some(p => p.test(trimmed))`, in declaration order. -/
def trivialMatch (t : List Char) : Bool :=
  anchoredWordPunct t greetingWords || emojiOnly t || emojiClassOnly t ||
    anchoredWordPunct t yesNoWords

/-! Dot-star patterns `/\bdesign\s+.*\s+from\s+scratch\b/i` and
`/\bexplain\s+.*\s+in\s+depth\b/i`: after the head word, some split of
the remainder into a whitespace-led connector (whose tail after the
leading `\s+` must be free of line terminators, since `.` matches
neither `\n` nor `\r`/LS/PS) followed by `\s+` and the tail words. -/

def noLT (l : List Char) : Bool := l.all (fun c => !isLineTerm c)

/-- Some nonempty whitespace prefix whose remainder is line-terminator
free (the `\s+.*` part of the connector, up to the chosen split). -/
def connAllowed : List Char → Bool
  | [] => false
  | c :: rest => isJsSpace c && (noLT rest || connAllowed rest)

/-- `\s+` then the tail word sequence then `\b`. -/
def tailSpaced (tail : List (List Char)) (r : List Char) : Bool :=
  let sp := r.takeWhile isJsSpace
  decide (1 ≤ sp.length) &&
    (match seqMatch tail (r.drop sp.length) with
     | some rem => nonWordOpt rem.head?
     | none => false)

def dotRangeOk (r : List Char) (tail : List (List Char)) : Bool :=
  (List.range (r.length + 1)).any (fun q =>
    connAllowed (r.take q) && tailSpaced tail (r.drop q))

def scanDotStar : Option Char → List Char → List Char → List (List Char) → Bool
  | _, [], _, _ => false
  | prev, c :: rest, w1, tail =>
    (nonWordOpt prev && w1.isPrefixOf (c :: rest) &&
      dotRangeOk ((c :: rest).drop w1.length) tail) ||
    scanDotStar (some c) rest w1 tail

def hasDotStarTail (l : List Char) (w1 : List Char) (tail : List (List Char)) : Bool :=
  scanDotStar none l w1 tail

/-- `/```[\s\S]{50,}```/`: two triple-backtick fences at least 50
characters apart. -/
def ticksAt (t : List Char) (k : Nat) : Bool :=
  (wchars "```").isPrefixOf (t.drop k)

def codeBlock50 (t : List Char) : Bool :=
  (List.range t.length).any (fun i =>
    ticksAt t i &&
      (List.range t.length).any (fun j => i + 53 ≤ j && ticksAt t j))

/-- A named pattern check; `name` is the signal name the source builds
from the regex source text (`` `flagship:${pattern.source.slice(0, 30)}` ``). -/
structure RegexCheck where
  name : String
  test : List Char → Bool

/-- `FLAGSHIP_PATTERNS` of `intent-classifier.ts`, in order. -/
def FLAGSHIP_PATTERNS : List RegexCheck :=
  [⟨"flagship:\\bmock\\s+interview\\b",
    fun t => hasSpacedWords (lowerL t) [[wchars "mock", wchars "interview"]]⟩,
   ⟨"flagship:\\bfull\\s+system\\s+design\\b",
    fun t => hasSpacedWords (lowerL t) [[wchars "full", wchars "system", wchars "design"]]⟩,
   ⟨"flagship:\\bdesign\\s+.*\\s+from\\s+scratch",
    fun t => hasDotStarTail (lowerL t) (wchars "design") [wchars "from", wchars "scratch"]⟩,
   ⟨"flagship:\\barchitect(?:ure)?\\s+review\\b",
    fun t => hasSpacedWords (lowerL t)
      [[wchars "architect", wchars "review"], [wchars "architecture", wchars "review"]]⟩,
   ⟨"flagship:\\bdeep\\s+dive\\b",
    fun t => hasSpacedWords (lowerL t) [[wchars "deep", wchars "dive"]]⟩,
   ⟨"flagship:\\bcomprehensive\\s+analysis\\b",
    fun t => hasSpacedWords (lowerL t) [[wchars "comprehensive", wchars "analysis"]]⟩,
   ⟨"flagship:\\bwrite\\s+a\\s+(?:full|complete",
    fun t => hasSpacedWords (lowerL t)
      [[wchars "write", wchars "a", wchars "full", wchars "implementation"],
       [wchars "write", wchars "a", wchars "full", wchars "solution"],
       [wchars "write", wchars "a", wchars "complete", wchars "implementation"],
       [wchars "write", wchars "a", wchars "complete", wchars "solution"]]⟩,
   ⟨"flagship:\\bexplain\\s+.*\\s+in\\s+depth\\b",
    fun t => hasDotStarTail (lowerL t) (wchars "explain") [wchars "in", wchars "depth"]⟩,
   ⟨"flagship:\\bpaper\\s+review\\b",
    fun t => hasSpacedWords (lowerL t) [[wchars "paper", wchars "review"]]⟩,
   ⟨"flagship:\\bRFC\\b",
    fun t => hasSpacedWords t [[wchars "RFC"]]⟩]

/-- `COMPLEX_PATTERNS` of `intent-classifier.ts`, in order. -/
def COMPLEX_PATTERNS : List RegexCheck :=
  [⟨"complex:\\bsystem\\s+design\\b",
    fun t => hasSpacedWords (lowerL t) [[wchars "system", wchars "design"]]⟩,
   ⟨"complex:\\bcode\\s+review\\b",
    fun t => hasSpacedWords (lowerL t) [[wchars "code", wchars "review"]]⟩,
   ⟨"complex:\\brefactor\\b",
    fun t => hasSpacedWords (lowerL t) [[wchars "refactor"]]⟩,
   ⟨"complex:\\bdebug\\b",
    fun t => hasSpacedWords (lowerL t) [[wchars "debug"]]⟩,
   ⟨"complex:\\bimplement\\b",
    fun t => hasSpacedWords (lowerL t) [[wchars "implement"]]⟩,
   ⟨"complex:\\boptimize\\b",
    fun t => hasSpacedWords (lowerL t) [[wchars "optimize"]]⟩,
   ⟨"complex:\\btrade-?offs?\\b",
    fun t => hasSpacedWords (lowerL t)
      [[wchars "tradeoff"], [wchars "tradeoffs"], [wchars "trade-off"], [wchars "trade-offs"]]⟩,
   ⟨"complex:\\bcompare\\s+(?:and\\s+)?contras",
    fun t => hasSpacedWords (lowerL t)
      [[wchars "compare", wchars "contrast"], [wchars "compare", wchars "and", wchars "contrast"]]⟩,
   ⟨"complex:\\bpros?\\s+(?:and\\s+)?cons?\\b",
    fun t => hasSpacedWords (lowerL t)
      [[wchars "pro", wchars "con"], [wchars "pro", wchars "cons"],
       [wchars "pros", wchars "con"], [wchars "pros", wchars "cons"],
       [wchars "pro", wchars "and", wchars "con"], [wchars "pro", wchars "and", wchars "cons"],
       [wchars "pros", wchars "and", wchars "con"], [wchars "pros", wchars "and", wchars "cons"]]⟩,
   ⟨"complex:\\bstep\\s+by\\s+step\\b",
    fun t => hasSpacedWords (lowerL t) [[wchars "step", wchars "by", wchars "step"]]⟩,
   ⟨"complex:\\bexplain\\s+(?:how|why|when)\\b",
    fun t => hasSpacedWords (lowerL t)
      [[wchars "explain", wchars "how"], [wchars "explain", wchars "why"],
       [wchars "explain", wchars "when"]]⟩,
   ⟨"complex:\\bwhat\\s+(?:would|should)\\s+ha",
    fun t => hasSpacedWords (lowerL t)
      [[wchars "what", wchars "would", wchars "happen", wchars "if"],
       [wchars "what", wchars "should", wchars "happen", wchars "if"]]⟩,
   ⟨"complex:```[\\s\\S]\x7b50,\x7d```",
    fun t => codeBlock50 t⟩,
   ⟨"complex:\\b(?:transformer|attention|bac",
    fun t => hasSpacedWords (lowerL t)
      [[wchars "transformer"], [wchars "attention"], [wchars "backprop"],
       [wchars "gradient"], [wchars "loss", wchars "function"], [wchars "regularization"]]⟩,
   ⟨"complex:\\b(?:kubernetes|docker|microse",
    fun t => hasSpacedWords (lowerL t)
      [[wchars "kubernetes"], [wchars "docker"], [wchars "microservice"],
       [wchars "distributed"], [wchars "consensus"], [wchars "cap", wchars "theorem"]]⟩]

/-! `SIMPLE_PATTERNS`, each translated as a dedicated anchored scanner. -/

/-- `\s+` step: requires a nonempty whitespace run, returns the rest. -/
def eatWs (l : List Char) : Option (List Char) :=
  let sp := l.takeWhile isJsSpace
  if sp.length = 0 then none else some (l.drop sp.length)

/-- `\w+\s*\??$`: a nonempty word-character run, optional whitespace,
an optional final question mark, end of string. -/
def wordThenOptQ (l : List Char) : Bool :=
  let wd := l.takeWhile isWordChar
  decide (1 ≤ wd.length) &&
    (match (l.drop wd.length).dropWhile isJsSpace with
     | [] => true
     | ['?'] => true
     | _ => false)

/-- `/^what\s+(?:is|are|was|were)\s+\w+\s*\??$/i` -/
def simplePat1 (t : List Char) : Bool :=
  let lw := lowerL t
  ((wchars "what").isPrefixOf lw) &&
    (match eatWs (lw.drop 4) with
     | none => false
     | some r1 =>
       [wchars "is", wchars "are", wchars "was", wchars "were"].any (fun w =>
         w.isPrefixOf r1 &&
           (match eatWs (r1.drop w.length) with
            | none => false
            | some r2 => wordThenOptQ r2))
     )

/-- `/^(?:define|definition\s+of)\s+\w+\s*\??$/i` -/
def simplePat2 (t : List Char) : Bool :=
  let lw := lowerL t
  ((wchars "define").isPrefixOf lw &&
     (match eatWs (lw.drop 6) with
      | none => false
      | some r => wordThenOptQ r)) ||
  ((wchars "definition").isPrefixOf lw &&
     (match eatWs (lw.drop 10) with
      | none => false
      | some r1 =>
        (wchars "of").isPrefixOf r1 &&
          (match eatWs (r1.drop 2) with
           | none => false
           | some r2 => wordThenOptQ r2)))

/-- `/^how\s+(?:do|does)\s+\w+\s+work\s*\??$/i` -/
def simplePat3 (t : List Char) : Bool :=
  let lw := lowerL t
  ((wchars "how").isPrefixOf lw) &&
    (match eatWs (lw.drop 3) with
     | none => false
     | some r1 =>
       [wchars "do", wchars "does"].any (fun w =>
         w.isPrefixOf r1 &&
           (match eatWs (r1.drop w.length) with
            | none => false
            | some r2 =>
              let wd := r2.takeWhile isWordChar
              decide (1 ≤ wd.length) &&
                (match eatWs (r2.drop wd.length) with
                 | none => false
                 | some r3 =>
                   (wchars "work").isPrefixOf r3 &&
                     (match (r3.drop 4).dropWhile isJsSpace with
                      | [] => true
                      | ['?'] => true
                      | _ => false))))
     )

/-- Anchored word sequence followed by a `\b` boundary, e.g.
`/^what\s+time\b/i`. -/
def anchoredSpacedB (t : List Char) (wordsL : List String) : Bool :=
  match seqMatch (wordsL.map (·.data)) (lowerL t) with
  | some r => nonWordOpt r.head?
  | none => false

/-- `/^(?:remind|reminder)\b/i` -/
def simplePat7 (t : List Char) : Bool :=
  anchoredSpacedB t ["remind"] || anchoredSpacedB t ["reminder"]

/-- `/^(?:translate|convert)\s+/i` -/
def simplePat8 (t : List Char) : Bool :=
  let lw := lowerL t
  [wchars "translate", wchars "convert"].any (fun w =>
    w.isPrefixOf lw && (eatWs (lw.drop w.length)).isSome)

/-- `SIMPLE_PATTERNS.some(p => p.test(trimmed))`, in declaration order. -/
def simpleMatch (t : List Char) : Bool :=
  simplePat1 t || simplePat2 t || simplePat3 t ||
  anchoredSpacedB t ["what", "time"] || anchoredSpacedB t ["what", "day"] ||
  anchoredSpacedB t ["when", "is"] || simplePat7 t || simplePat8 t

/-! ### Length/shape heuristics of the classifier -/

/-- `trimmed.split(/\s+/).length` for a trimmed nonempty string: the
number of maximal non-whitespace runs. -/
def countWordsGo : List Char → Bool → Nat
  | [], _ => 0
  | c :: rest, inWord =>
    if isJsSpace c then countWordsGo rest false
    else (if inWord then 0 else 1) + countWordsGo rest true

def wordCount (t : List Char) : Nat := countWordsGo t false

/-- `/```/.test(trimmed)` -/
def hasCodeBlock (t : List Char) : Bool := containsLit t (wchars "```")

/-- `(trimmed.match(/\?/g) || []).length >= 2` -/
def hasMultipleQuestions (t : List Char) : Bool :=
  decide (2 ≤ t.count '?')

/-- One position of `/^\s*\d+[.)]\s/m`: optional whitespace, a digit
run, `.` or `)`, then one whitespace character. -/
def numberedHere (l : List Char) : Bool :=
  let a := l.dropWhile isJsSpace
  let d := a.takeWhile (·.isDigit)
  decide (1 ≤ d.length) &&
    (match a.drop d.length with
     | p :: s :: _ => (p = '.' || p = ')') && isJsSpace s
     | [_] => false
     | [] => false)

def scanNumbered : List Char → Bool
  | [] => false
  | c :: rest => (isLineTerm c && numberedHere rest) || scanNumbered rest

/-- `/^\s*\d+[.)]\s/m.test(trimmed)` (`^` matches at the start and
after every line terminator under the `m` flag). -/
def hasNumberedList (t : List Char) : Bool :=
  numberedHere t || scanNumbered t

/-! ### `classifyIntent` -/

inductive IntentComplexity where
  | trivial | simple | standard | complex | flagship | explicit
deriving DecidableEq, Repr

structure ClassificationSignal where
  name : String
  weight : ℚ
  matched : Bool
deriving DecidableEq, Repr

structure ClassificationResult where
  intent : IntentComplexity
  confidence : ℚ
  reason : String
  signals : List ClassificationSignal
deriving DecidableEq, Repr

/-! Scores are held in integer hundredths (`40` for the source's `0.4`)
so that the exact-rational model of the source's floating-point
accumulations stays kernel-computable; a score `s` in hundredths stands
for the rational `mkRat s 100`. -/

/-- `flagshipScore`: 0.4 per matching flagship pattern (hundredths). -/
def flagshipScore100 (t : List Char) : Nat :=
  40 * (FLAGSHIP_PATTERNS.filter (fun p => p.test t)).length

def flagshipSignalsOf (t : List Char) : List ClassificationSignal :=
  FLAGSHIP_PATTERNS.map (fun p => ⟨p.name, mkRat 2 5, p.test t⟩)

def complexSignalsBaseOf (t : List Char) : List ClassificationSignal :=
  COMPLEX_PATTERNS.map (fun p => ⟨p.name, mkRat 1 4, p.test t⟩)

def lengthSignalsOf (t : List Char) : List ClassificationSignal :=
  if 100 < wordCount t then [⟨"long_message", mkRat 3 10, true⟩]
  else if 50 < wordCount t then [⟨"medium_message", mkRat 3 20, true⟩]
  else []

def lengthScore100 (t : List Char) : Nat :=
  if 100 < wordCount t then 30
  else if 50 < wordCount t then 15
  else 0

def codeBlockSignalsOf (t : List Char) : List ClassificationSignal :=
  if hasCodeBlock t then [⟨"code_block", mkRat 3 10, true⟩] else []

def codeBlockScore100 (t : List Char) : Nat :=
  if hasCodeBlock t then 30 else 0

def multiQSignalsOf (t : List Char) : List ClassificationSignal :=
  if hasMultipleQuestions t then [⟨"multiple_questions", mkRat 1 5, true⟩] else []

def multiQScore100 (t : List Char) : Nat :=
  if hasMultipleQuestions t then 20 else 0

def numberedSignalsOf (t : List Char) : List ClassificationSignal :=
  if hasNumberedList t then [⟨"numbered_list", mkRat 3 20, true⟩] else []

def numberedScore100 (t : List Char) : Nat :=
  if hasNumberedList t then 15 else 0

/-- `complexScore` after all accumulation steps (hundredths). -/
def complexScore100 (t : List Char) : Nat :=
  25 * (COMPLEX_PATTERNS.filter (fun p => p.test t)).length +
    lengthScore100 t + codeBlockScore100 t + multiQScore100 t + numberedScore100 t

/-- The signal list as it stands after the complex-accumulation stage. -/
def accumulatedSignalsOf (t : List Char) : List ClassificationSignal :=
  flagshipSignalsOf t ++ complexSignalsBaseOf t ++ lengthSignalsOf t ++
    codeBlockSignalsOf t ++ multiQSignalsOf t ++ numberedSignalsOf t

/-- The staged cascade of `classifyIntent` over the trimmed message,
first decisive stage wins.  The flagship confidence
`min(0.95, 0.6 + flagshipScore)` is `mkRat (min 95 (60 + s)) 100` for
the hundredths score `s`; the complex confidence
`min(0.9, 0.5 + complexScore * 0.4)` is
`mkRat (min 900 (500 + 4 * s)) 1000`. -/
def classifyBody (trimmed : List Char) : ClassificationResult :=
  if trimmed.length = 0 then
    ⟨.trivial, 1, "empty message", []⟩
  else if explicitMatch trimmed then
    ⟨.explicit, 1, "explicit model request", [⟨"explicit_model_request", 1, true⟩]⟩
  else if trivialMatch trimmed then
    ⟨.trivial, mkRat 19 20, "trivial pattern match", [⟨"trivial_pattern", 1, true⟩]⟩
  else if trimmed.length < 10 && !(trimmed.contains '?') then
    ⟨.trivial, mkRat 4 5, "very short non-question", [⟨"very_short", mkRat 4 5, true⟩]⟩
  else if 40 ≤ flagshipScore100 trimmed then
    ⟨.flagship, mkRat (min 95 (60 + flagshipScore100 trimmed)) 100,
      "flagship keyword match", flagshipSignalsOf trimmed⟩
  else if 50 ≤ complexScore100 trimmed then
    ⟨.complex, mkRat (min 900 (500 + 4 * complexScore100 trimmed)) 1000,
      "complex signal accumulation", accumulatedSignalsOf trimmed⟩
  else if simpleMatch trimmed then
    ⟨.simple, mkRat 4 5, "simple pattern match",
      accumulatedSignalsOf trimmed ++ [⟨"simple_pattern", mkRat 7 10, true⟩]⟩
  else if wordCount trimmed ≤ 15 && complexScore100 trimmed < 25 then
    ⟨.simple, mkRat 7 10, "short message without complexity",
      accumulatedSignalsOf trimmed ++ [⟨"short_no_complexity", mkRat 3 5, true⟩]⟩
  else
    ⟨.standard, mkRat 3 5, "no strong signal — default to standard",
      accumulatedSignalsOf trimmed⟩

/-- `classifyIntent` of `intent-classifier.ts`: trim, then run the
staged cascade. -/
def classifyIntent (message : String) : ClassificationResult :=
  classifyBody (trimL message.data)

/-! ### Line splitting and joining (`prompt.split("\n")`, `join("\n")`) -/

def splitNL : List Char → List (List Char)
  | [] => [[]]
  | c :: rest =>
    if c = '\n' then [] :: splitNL rest
    else
      match splitNL rest with
      | s :: ss => (c :: s) :: ss
      | [] => [[c]]

def joinNL : List (List Char) → List Char
  | [] => []
  | [s] => s
  | s :: ss => s ++ '\n' :: joinNL ss

/-! ### Model tiers (`model-tiers.ts`) -/

inductive ModelTierId where
  | t0 | t1 | t2 | t3 | t4
deriving DecidableEq, Repr

structure ModelRef where
  provider : String
  model : String
deriving DecidableEq, Repr

/-- `TIER_ORDER`: ordered tier IDs from cheapest to most capable. -/
def TIER_ORDER : List ModelTierId := [.t0, .t1, .t2, .t3, .t4]

/-- `tierIndex(tier) = TIER_ORDER.indexOf(tier)`. -/
def tierIndex (tier : ModelTierId) : Nat := TIER_ORDER.indexOf tier

/-- `isHigherTier(a, b) = tierIndex(a) > tierIndex(b)`. -/
def isHigherTier (a b : ModelTierId) : Bool := tierIndex b < tierIndex a

/-- `maxTier(a, b) = tierIndex(a) >= tierIndex(b) ? a : b`. -/
def maxTier (a b : ModelTierId) : ModelTierId :=
  if tierIndex b ≤ tierIndex a then a else b

/-- `clampTier(tier, maxAllowed)`. -/
def clampTier (tier maxAllowed : ModelTierId) : ModelTierId :=
  if tierIndex tier ≤ tierIndex maxAllowed then tier else maxAllowed

/-- `INTENT_TO_MIN_TIER` / `resolveMinTierForIntent`. -/
def resolveMinTierForIntent : IntentComplexity → ModelTierId
  | .trivial => .t0
  | .simple => .t1
  | .standard => .t2
  | .complex => .t3
  | .flagship => .t4
  | .explicit => .t4

/-- `DEFAULT_TIER_MODELS` / `getDefaultTierModel`. -/
def getDefaultTierModel : ModelTierId → Option ModelRef
  | .t0 => none
  | .t1 => some ⟨"ollama", "qwen2.5:7b"⟩
  | .t2 => some ⟨"anthropic", "claude-sonnet-4-5"⟩
  | .t3 => some ⟨"anthropic", "claude-sonnet-4-5"⟩
  | .t4 => some ⟨"anthropic", "claude-opus-4-5"⟩

/-! ### Prompt adapter (`prompt-adapter.ts`) -/

structure AdaptedPrompt where
  systemPrompt : Option String
  userPreamble : Option String
  tier : ModelTierId
  wasAdapted : Bool
deriving DecidableEq, Repr

/-- `STRIPPABLE_SECTION_HEADERS` — the pre-normalized header set (the
source's `Set` constructor receives this array; the duplicate entry is
kept, membership is unaffected). -/
def STRIPPABLE_SECTION_HEADERS : List (List Char) :=
  ["tools", "available tools", "tool usage", "memory", "workspace files",
   "every session", "heartbeats", "group chats", "react like a human",
   "heartbeats - be proactive", "know when to speak",
   "react like a human"].map (·.data)

/-- The capture group of `line.match(/^(#{1,3})\s+(.+)$/)`: one to
three `#`, a nonempty whitespace run, then a nonempty remainder free of
line terminators (`.` matches neither `\n` nor `\r`/LS/PS and `$` is
end-of-string, so backtracking can surrender at most the final
whitespace character to the capture). -/
def headerCapture (line : List Char) : Option (List Char) :=
  let hashes := line.takeWhile (· = '#')
  let rest := line.drop hashes.length
  if hashes.length = 0 || 3 < hashes.length then none
  else
    let w := rest.takeWhile isJsSpace
    let t := rest.drop w.length
    if w.length = 0 then none
    else if !t.isEmpty then
      (if t.all (fun c => !isLineTerm c) then some t else none)
    else
      match w.getLast? with
      | some lc => if 2 ≤ w.length && !isLineTerm lc then some [lc] else none
      | none => none

/-- Header normalization: lowercase, strip leading
`[\p{Emoji}\p{Emoji_Presentation}\s]+` (`Emoji_Presentation ⊆ Emoji`),
strip trailing `[!?.]+`, trim. -/
def normalizeHeader (raw : List Char) : List Char :=
  trimL (dropTrailWhile (fun c => c = '!' || c = '?' || c = '.')
    ((lowerL raw).dropWhile (fun c => isEmojiChar c || isJsSpace c)))

def headerNorm (line : List Char) : Option (List Char) :=
  (headerCapture line).map normalizeHeader

/-- The line scan of `stripSectionsByHeader` with its `skipping` state. -/
def stripLoop : List (List Char) → Bool → List (List Char)
  | [], _ => []
  | line :: rest, skipping =>
    match headerNorm line with
    | some raw =>
      if STRIPPABLE_SECTION_HEADERS.contains raw then stripLoop rest true
      else line :: stripLoop rest false
    | none =>
      if skipping then stripLoop rest skipping
      else line :: stripLoop rest skipping

/-- `stripSectionsByHeader(prompt, STRIPPABLE_SECTION_HEADERS)`. -/
def stripSectionsByHeader (prompt : List Char) : List Char :=
  joinNL (stripLoop (splitNL prompt) false)

/-- A line that is not a markdown header (no `/^(#{1,3})\s+(.+)$/`
match); such lines never change the `skipping` state. -/
def nonHeaderLine (l : List Char) : Bool := (headerNorm l).isNone

/-- A header line whose normalized text is *not* in the strip set — the
section it opens survives stripping. -/
def keepHeaderLine (l : List Char) : Bool :=
  match headerNorm l with
  | some raw => !(STRIPPABLE_SECTION_HEADERS.contains raw)
  | none => false

/-- A header line whose normalized text is in the strip set. -/
def strippableLine (l : List Char) : Bool :=
  match headerNorm l with
  | some raw => STRIPPABLE_SECTION_HEADERS.contains raw
  | none => false

/-! The three `BOILERPLATE_PHRASES` replacements.  Each models a global
`String.replace`: leftmost-first, non-overlapping, the search resuming
after the removed match (a fuel argument bounds the scan; the fuel
`l.length` is always sufficient since every step consumes a character). -/

def BP1 : List Char := "Don't ask permission. Just do it.".data

/-- `/Don't ask permission\. Just do it\.\n?/g` (the optional greedy
`\n?` takes a following newline when present). -/
def replaceBoiler1Go : Nat → List Char → List Char
  | 0, l => l
  | fuel + 1, l =>
    match l with
    | [] => []
    | c :: rest =>
      if BP1.isPrefixOf (c :: rest) then
        replaceBoiler1Go fuel
          (match (c :: rest).drop BP1.length with
           | '\n' :: r2 => r2
           | r => r)
      else c :: replaceBoiler1Go fuel rest

def replaceBoiler1 (l : List Char) : List Char := replaceBoiler1Go l.length l

/-- The `.*?\n` suffix of the second and third boilerplate patterns:
the shortest line-terminator-free run up to a `\n`; returns the
remainder after the `\n`, or `none` when a `\r`/LS/PS or the end of the
string intervenes. -/
def lazyToNewline : List Char → Option (List Char)
  | [] => none
  | '\n' :: rest => some rest
  | c :: rest => if isLineTerm c then none else lazyToNewline rest

def BP2 : List Char := "You wake up fresh each session.".data

/-- `/You wake up fresh each session\..*?\n/g` -/
def replaceBoiler2Go : Nat → List Char → List Char
  | 0, l => l
  | fuel + 1, l =>
    match l with
    | [] => []
    | c :: rest =>
      if BP2.isPrefixOf (c :: rest) then
        match lazyToNewline ((c :: rest).drop BP2.length) with
        | some rem => replaceBoiler2Go fuel rem
        | none => c :: replaceBoiler2Go fuel rest
      else c :: replaceBoiler2Go fuel rest

def replaceBoiler2 (l : List Char) : List Char := replaceBoiler2Go l.length l

def BP3 : List Char := "This file is yours to evolve.".data

/-- `/This file is yours to evolve\..*?\n/g` -/
def replaceBoiler3Go : Nat → List Char → List Char
  | 0, l => l
  | fuel + 1, l =>
    match l with
    | [] => []
    | c :: rest =>
      if BP3.isPrefixOf (c :: rest) then
        match lazyToNewline ((c :: rest).drop BP3.length) with
        | some rem => replaceBoiler3Go fuel rem
        | none => c :: replaceBoiler3Go fuel rest
      else c :: replaceBoiler3Go fuel rest

def replaceBoiler3 (l : List Char) : List Char := replaceBoiler3Go l.length l

def stripBoilerplate (l : List Char) : List Char :=
  replaceBoiler3 (replaceBoiler2 (replaceBoiler1 l))

/-- `adapted.replace(/\n{3,}/g, "\n\n")`: a maximal newline run of
length `k` is emitted as `min`-style `if k ≥ 3 then 2 else k`
newlines. -/
def emitNL (k : Nat) : List Char :=
  List.replicate (if 3 ≤ k then 2 else k) '\n'

def collapseGo : List Char → Nat → List Char
  | [], k => emitNL k
  | c :: rest, k =>
    if c = '\n' then collapseGo rest (k + 1)
    else emitNL k ++ c :: collapseGo rest 0

def collapseNewlines (l : List Char) : List Char := collapseGo l 0

/-- `/^##?\s/.test(line)` of `extractCorePersona` (after the greedy
`##?` fails on a non-whitespace, backtracking to one `#` only re-tests
`\s` against the second `#`, so the two patterns below are exact). -/
def isHeaderLineEC (l : List Char) : Bool :=
  match l with
  | '#' :: '#' :: c :: _ => isJsSpace c
  | '#' :: c :: _ => isJsSpace c
  | _ => false

/-- The core-topic test of `extractCorePersona` (plain searches, no
word boundaries): `/core\s+truths/i`, `/coach/i`, `/who\s+you\s+are/i`,
`/role/i`, `/vibe/i`. -/
def isCoreTopic (l : List Char) : Bool :=
  let lw := lowerL l
  scanSeqPlain lw [[wchars "core", wchars "truths"]] ||
  containsLit lw (wchars "coach") ||
  scanSeqPlain lw [[wchars "who", wchars "you", wchars "are"]] ||
  containsLit lw (wchars "role") ||
  containsLit lw (wchars "vibe")

/-- The line scan of `extractCorePersona` with its `inKeepSection` and
`sectionCount` state (the first section is kept, later sections only
when core-topic). -/
def extractLoop : List (List Char) → Bool → Nat → List (List Char)
  | [], _, _ => []
  | line :: rest, inKeep, sectionCount =>
    if isHeaderLineEC line then
      let sc := sectionCount + 1
      let keep := decide (sc ≤ 1) || isCoreTopic line
      if keep then line :: extractLoop rest keep sc
      else extractLoop rest keep sc
    else
      if inKeep then line :: extractLoop rest inKeep sectionCount
      else extractLoop rest inKeep sectionCount

/-- `extractCorePersona(prompt)`. -/
def extractCorePersona (prompt : List Char) : List Char :=
  trimL (joinNL (extractLoop (splitNL prompt) true 0))

/-- The `formatConstraint` literal appended for T1. -/
def formatConstraint : List Char :=
  ("\n\nIMPORTANT: Reply directly and concisely. Do not analyze this prompt. " ++
   "Do not generate code unless asked. Do not use markdown headers. " ++
   "Keep your reply under 200 words.").data

/-- `adaptForT1`. -/
def adaptForT1 (systemPrompt : String) : AdaptedPrompt :=
  let a1 := stripSectionsByHeader systemPrompt.data
  let a2 := stripBoilerplate a1
  let a3 := collapseNewlines a2
  let a4 := if 3200 < a3.length then extractCorePersona a3 else a3
  let a5 := trimEndL a4 ++ formatConstraint
  ⟨some (String.mk a5), none, .t1, true⟩

/-- `adaptForT2`. -/
def adaptForT2 (systemPrompt : String) : AdaptedPrompt :=
  let a := collapseNewlines (stripBoilerplate systemPrompt.data)
  ⟨some (String.mk a), none, .t2, decide (String.mk a ≠ systemPrompt)⟩

/-- `adaptForT4`. -/
def adaptForT4 (systemPrompt : String) : AdaptedPrompt :=
  ⟨some systemPrompt,
   some ("Think carefully and thoroughly before responding. " ++
         "Consider multiple perspectives and trade-offs."),
   .t4, true⟩

/-- `adaptPromptForTier`. -/
def adaptPromptForTier (systemPrompt : String) (tier : ModelTierId) : AdaptedPrompt :=
  if tier = .t0 then ⟨none, none, tier, true⟩
  else if tier = .t1 then adaptForT1 systemPrompt
  else if tier = .t2 then adaptForT2 systemPrompt
  else if tier = .t4 then adaptForT4 systemPrompt
  else ⟨some systemPrompt, none, .t3, false⟩

/-! ### Routing configuration (`types.intelligent-routing.ts`) -/

inductive RoutingBias where
  | cost | balanced | quality
deriving DecidableEq, Repr

structure TierModelConfig where
  model : String
  maxTokens : Option Nat
deriving DecidableEq, Repr

structure CurrentSpend where
  dailyUsd : Option ℚ
  monthlyUsd : Option ℚ
deriving DecidableEq, Repr

structure RoutingBudgetConfig where
  dailyCapUsd : Option ℚ
  monthlyCapUsd : Option ℚ
  preferFree : Option Bool
  /-- Caller-aggregated spend totals, read by `applyBudgetConstraints`
  (`budget.currentSpend?.dailyUsd` / `…monthlyUsd`). -/
  currentSpend : Option CurrentSpend
deriving DecidableEq, Repr

structure IntelligentRoutingConfig where
  enabled : Option Bool
  bias : Option RoutingBias
  /-- `tiers?: Partial<Record<ModelTierId, TierModelConfig>>`. -/
  tiers : ModelTierId → Option TierModelConfig
  budget : Option RoutingBudgetConfig
  analytics : Option Bool
  analyticsPath : Option String

inductive GlobalDefaultModel where
  | str (s : String)
  | obj (primary : Option String)
deriving DecidableEq, Repr

structure AgentDefaults where
  model : Option GlobalDefaultModel
deriving DecidableEq, Repr

structure AgentsSection where
  defaults : Option AgentDefaults
deriving DecidableEq, Repr

/-- The slice of `MoltbotConfig` read by the router
(`cfg.agents?.defaults?.model`). -/
structure MoltbotConfig where
  agents : Option AgentsSection
deriving DecidableEq, Repr

/-! ### Router (`intelligent-router.ts`) -/

/-- Modelled from the spec: `DEFAULT_PROVIDER` lives in `defaults.ts`,
which is not in the repository snapshot; §6 of the spec says a
model-ref string with no separator "falls back to a default provider".
The concrete value is immaterial to every claim below. -/
def DEFAULT_PROVIDER : String := "anthropic"

/-- Modelled from the spec: `parseModelRef` lives in
`model-selection.ts`, which is not in the repository snapshot.  Spec
§6: a model-ref string has the form `"<provider>/<model-identifier>"`,
split on the first `/` only (identifiers may contain `/`); an absent
separator falls back to the default provider; an unparseable string
(empty, or with an empty provider or identifier) yields no ref. -/
def parseModelRef (raw : String) (defaultProvider : String) : Option ModelRef :=
  let t := trimL raw.data
  if t.isEmpty then none
  else
    let before := t.takeWhile (· ≠ '/')
    if before.length = t.length then some ⟨defaultProvider, String.mk t⟩
    else
      let after := t.drop (before.length + 1)
      if before.isEmpty || after.isEmpty then none
      else some ⟨String.mk before, String.mk after⟩

/-- `applyBias` of `intelligent-router.ts`. -/
def applyBias (tier : ModelTierId) (bias : RoutingBias) : ModelTierId :=
  match bias with
  | .balanced => tier
  | .cost =>
    if tierIndex tier ≤ 1 then tier
    else TIER_ORDER.getD (tierIndex tier - 1) tier
  | .quality =>
    if 4 ≤ tierIndex tier then tier
    else TIER_ORDER.getD (tierIndex tier + 1) tier

/-- The daily-cap test `budget.dailyCapUsd != null &&
budget.currentSpend?.dailyUsd != null && dailyUsd >= dailyCapUsd`. -/
def dailyCapHit (b : RoutingBudgetConfig) : Bool :=
  match b.dailyCapUsd, b.currentSpend.bind (·.dailyUsd) with
  | some cap, some d => cap ≤ d
  | _, _ => false

def monthlyCapHit (b : RoutingBudgetConfig) : Bool :=
  match b.monthlyCapUsd, b.currentSpend.bind (·.monthlyUsd) with
  | some cap, some m => cap ≤ m
  | _, _ => false

/-- `applyBudgetConstraints` of `intelligent-router.ts`. -/
def applyBudgetConstraints (tier : ModelTierId)
    (routingConfig : IntelligentRoutingConfig) : ModelTierId :=
  match routingConfig.budget with
  | none => tier
  | some budget =>
    if budget.preferFree.getD false then clampTier tier .t1
    else if dailyCapHit budget then clampTier tier .t1
    else if monthlyCapHit budget then clampTier tier .t1
    else tier

/-- The hard-coded terminal fallback of `resolveModelForTier`. -/
def hardCodedFallbackModel : ModelRef := ⟨DEFAULT_PROVIDER, "claude-sonnet-4-5"⟩

/-- The tier-override step of `resolveModelForTier`: the config's
tier-specific model string, when present and truthy, parsed (a failed
parse yields `none`, falling through). -/
def tierOverride (tier : ModelTierId)
    (routingConfig : IntelligentRoutingConfig) : Option ModelRef :=
  match routingConfig.tiers tier with
  | some tierConfig =>
    if tierConfig.model = "" then none
    else parseModelRef tierConfig.model DEFAULT_PROVIDER
  | none => none

/-- The global-default step of `resolveModelForTier`
(`cfg.agents?.defaults?.model`, string or `{primary}`). -/
def globalDefaultParsed (cfg : MoltbotConfig) : Option ModelRef :=
  match (cfg.agents.bind (·.defaults)).bind (·.model) with
  | some (.str s) => parseModelRef s DEFAULT_PROVIDER
  | some (.obj (some primary)) => parseModelRef primary DEFAULT_PROVIDER
  | some (.obj none) => none
  | none => none

/-- `resolveModelForTier`: override → built-in default → global default
→ hard-coded fallback. -/
def resolveModelForTier (tier : ModelTierId)
    (routingConfig : IntelligentRoutingConfig) (cfg : MoltbotConfig) : ModelRef :=
  match tierOverride tier routingConfig with
  | some parsed => parsed
  | none =>
    match getDefaultTierModel tier with
    | some defaultModel => defaultModel
    | none =>
      match globalDefaultParsed cfg with
      | some parsed => parsed
      | none => hardCodedFallbackModel

structure RoutingDecision where
  model : ModelRef
  tier : ModelTierId
  originalTier : ModelTierId
  classification : ClassificationResult
  adaptedPrompt : AdaptedPrompt
  bypassed : Bool
  /-- `bypassReason?` — absent (`none`) when not set. -/
  bypassReason : Option String

structure RouterParams where
  message : String
  systemPrompt : String
  cfg : MoltbotConfig
  routingConfig : IntelligentRoutingConfig
  sessionModelOverride : Option ModelRef
  channel : Option String
  sessionId : Option String

/-- `routeMessage` of `intelligent-router.ts`.  The analytics recording
is a fire-and-forget side effect that never alters the returned
decision; it is not modelled. -/
def routeMessage (params : RouterParams) : RoutingDecision :=
  match params.sessionModelOverride with
  | some ovr =>
    { model := ovr
      tier := .t3
      originalTier := .t3
      classification := classifyIntent params.message
      adaptedPrompt := adaptPromptForTier params.systemPrompt .t3
      bypassed := true
      bypassReason := some "session model override" }
  | none =>
    let classification := classifyIntent params.message
    if classification.intent = .explicit then
      { model := resolveModelForTier .t3 params.routingConfig params.cfg
        tier := .t3
        originalTier := .t3
        classification := classification
        adaptedPrompt := adaptPromptForTier params.systemPrompt .t3
        bypassed := true
        bypassReason := some "explicit model request in message" }
    else
      let minTier := resolveMinTierForIntent classification.intent
      let biasedTier := applyBias minTier (params.routingConfig.bias.getD .balanced)
      let budgetTier := applyBudgetConstraints biasedTier params.routingConfig
      { model := resolveModelForTier budgetTier params.routingConfig params.cfg
        tier := budgetTier
        originalTier := minTier
        classification := classification
        adaptedPrompt := adaptPromptForTier params.systemPrompt budgetTier
        bypassed := false
        bypassReason := none }

/-! ### Auxiliary observables for the claims

`hasTripleNL` detects a run of three or more consecutive newlines;
`runEnd` is the length of the newline run in progress after a scan;
`hip` detects two adjacent empty lines with a line before and after
them (exactly the line configurations whose `"\n"`-join contains a
triple newline). -/

def tripleGo : List Char → Nat → Bool
  | [], _ => false
  | c :: rest, k =>
    if c = '\n' then (decide (3 ≤ k + 1) || tripleGo rest (k + 1))
    else tripleGo rest 0

def hasTripleNL (l : List Char) : Bool := tripleGo l 0

def runEnd : List Char → Nat → Nat
  | [], k => k
  | c :: rest, k => runEnd rest (if c = '\n' then k + 1 else 0)

def hip : List (List Char) → Bool
  | _ :: [] :: [] :: _ :: _ => true
  | _ :: rest => hip rest
  | [] => false

def pairAfterStart : List (List Char) → Bool
  | [] :: [] :: _ :: _ => true
  | _ => false

/-- The `SAMPLE_SYSTEM_PROMPT` of `prompt-adapter.test.ts`. -/
def samplePrompt : String :=
  "# SOUL.md - Who You Are\n\n## Core Truths\nBe genuinely helpful, not performatively helpful.\nHave opinions. Be resourceful before asking.\n\n## MLE Interview Coach Role\nLin is preparing for a Google MLE interview.\nCoaching style: Direct, no-BS, technically sharp.\n\n## Tools\nYou have access to bash, file reading, web search.\nUse tools when needed.\n\n## Memory\nYou wake up fresh each session. These files are your continuity.\nDon't ask permission. Just do it.\n\n## Heartbeats\nWhen you receive a heartbeat poll, check things proactively.\n\n## Group Chats\nIn group chats, be smart about when to contribute.\n\n## React Like a Human\nOn platforms that support reactions, use emoji reactions naturally.\n\n## Vibe\nBe the assistant you'd actually want to talk to."

/-- The T1-adapted system prompt text of a prompt (the adapted
`systemPrompt` is always non-null for T1). -/
def t1Output (prompt : String) : List Char :=
  (((adaptPromptForTier prompt .t1).systemPrompt).getD "").data

/-! ## Theorems -/

/-- Index of `clampTier _ t1` is at most 1. -/
lemma tierIndex_clampTier_t1 (t : ModelTierId) : tierIndex (clampTier t .t1) ≤ 1 := by
  cases t <;> decide

lemma dailyCapHit_of_no_spend {b : RoutingBudgetConfig} (h : b.currentSpend = none) :
    dailyCapHit b = false := by
  unfold dailyCapHit
  rw [h]
  cases b.dailyCapUsd <;> rfl

lemma monthlyCapHit_of_no_spend {b : RoutingBudgetConfig} (h : b.currentSpend = none) :
    monthlyCapHit b = false := by
  unfold monthlyCapHit
  rw [h]
  cases b.monthlyCapUsd <;> rfl

/-- C5: for every system prompt string and every tier, the result of
`adaptPromptForTier` has a `null` (`none`) `systemPrompt` if and only
if the tier is T0. -/
theorem adaptPromptForTier_null_iff_t0 (systemPrompt : String) (tier : ModelTierId) :
    (adaptPromptForTier systemPrompt tier).systemPrompt = none ↔ tier = .t0 := by
  cases tier <;>
    simp [adaptPromptForTier, adaptForT1, adaptForT2, adaptForT4]

/-- C8: `applyBias` is the identity for `balanced`; for `cost` it drops
one tier index unless the index is at most 1; for `quality` it raises
one index unless the index is at least 4; and the result is always a
valid tier (index at most 4, i.e. between T0 and T4). -/
theorem applyBias_spec (t : ModelTierId) :
    applyBias t .balanced = t ∧
    (tierIndex t ≤ 1 → applyBias t .cost = t) ∧
    (1 < tierIndex t → tierIndex (applyBias t .cost) = tierIndex t - 1) ∧
    (4 ≤ tierIndex t → applyBias t .quality = t) ∧
    (tierIndex t < 4 → tierIndex (applyBias t .quality) = tierIndex t + 1) ∧
    tierIndex (applyBias t .cost) ≤ 4 ∧
    tierIndex (applyBias t .balanced) ≤ 4 ∧
    tierIndex (applyBias t .quality) ≤ 4 := by
  cases t <;> decide

/-- Witness for C8: the cost bias drops T3 to index 2. -/
theorem applyBias_spec_witness :
    1 < tierIndex .t3 ∧ tierIndex (applyBias .t3 .cost) = tierIndex .t3 - 1 :=
  ⟨by decide, (applyBias_spec .t3).2.2.1 (by decide)⟩

/-- C3: budget clamp semantics of `applyBudgetConstraints`: no budget
section leaves the tier unchanged; `preferFree` returns
`clampTier t t1`; otherwise a triggered daily cap (cap set, spend
present and at least the cap) yields a tier of index at most 1;
otherwise a triggered monthly cap does the same; otherwise the tier is
returned unchanged — and a missing `currentSpend` disables both cap
checks (fails open). -/
theorem applyBudgetConstraints_spec (t : ModelTierId) (rc : IntelligentRoutingConfig) :
    (rc.budget = none → applyBudgetConstraints t rc = t) ∧
    ∀ b, rc.budget = some b →
      ((b.preferFree.getD false = true →
          applyBudgetConstraints t rc = clampTier t .t1) ∧
       (b.preferFree.getD false = false → dailyCapHit b = true →
          tierIndex (applyBudgetConstraints t rc) ≤ 1) ∧
       (b.preferFree.getD false = false → dailyCapHit b = false →
          monthlyCapHit b = true →
          tierIndex (applyBudgetConstraints t rc) ≤ 1) ∧
       (b.preferFree.getD false = false → dailyCapHit b = false →
          monthlyCapHit b = false →
          applyBudgetConstraints t rc = t) ∧
       (b.currentSpend = none → b.preferFree.getD false = false →
          applyBudgetConstraints t rc = t)) := by
  constructor
  · intro h
    simp [applyBudgetConstraints, h]
  · intro b hb
    refine ⟨?_, ?_, ?_, ?_, ?_⟩
    · intro hpf
      simp [applyBudgetConstraints, hb, hpf]
    · intro hpf hd
      simp [applyBudgetConstraints, hb, hpf, hd, tierIndex_clampTier_t1]
    · intro hpf hd hm
      simp [applyBudgetConstraints, hb, hpf, hd, hm, tierIndex_clampTier_t1]
    · intro hpf hd hm
      simp [applyBudgetConstraints, hb, hpf, hd, hm]
    · intro hcs hpf
      simp [applyBudgetConstraints, hb, hpf, dailyCapHit_of_no_spend hcs,
        monthlyCapHit_of_no_spend hcs]

/-- Witness for C3: a config whose daily cap (1 USD) is exceeded by the
current daily spend (1.5 USD) clamps T3 to index at most 1. -/
theorem applyBudgetConstraints_spec_witness :
    tierIndex (applyBudgetConstraints .t3
      ⟨none, none, fun _ => none,
        some ⟨some (mkRat 1 1), none, none, some ⟨some (mkRat 3 2), none⟩⟩,
        none, none⟩) ≤ 1 :=
  ((applyBudgetConstraints_spec .t3
      ⟨none, none, fun _ => none,
        some ⟨some (mkRat 1 1), none, none, some ⟨some (mkRat 3 2), none⟩⟩,
        none, none⟩).2
    ⟨some (mkRat 1 1), none, none, some ⟨some (mkRat 3 2), none⟩⟩ rfl).2.1
    rfl (by decide)

/-- C9: `resolveModelForTier` resolves in order — a present, truthy and
parseable tier override wins; otherwise the built-in tier default;
otherwise the parsed global default; otherwise the hard-coded fallback
constant — and a malformed (unparseable) override is treated exactly as
an absent one.  The function is total by construction (never throws). -/
theorem resolveModelForTier_chain (tier : ModelTierId)
    (rc : IntelligentRoutingConfig) (cfg : MoltbotConfig) :
    (∀ m, tierOverride tier rc = some m → resolveModelForTier tier rc cfg = m) ∧
    (∀ d, tierOverride tier rc = none → getDefaultTierModel tier = some d →
       resolveModelForTier tier rc cfg = d) ∧
    (∀ g, tierOverride tier rc = none → getDefaultTierModel tier = none →
       globalDefaultParsed cfg = some g → resolveModelForTier tier rc cfg = g) ∧
    (tierOverride tier rc = none → getDefaultTierModel tier = none →
       globalDefaultParsed cfg = none →
       resolveModelForTier tier rc cfg = hardCodedFallbackModel) ∧
    (∀ tc, rc.tiers tier = some tc → tc.model ≠ "" →
       parseModelRef tc.model DEFAULT_PROVIDER = none →
       tierOverride tier rc = none) := by
  refine ⟨?_, ?_, ?_, ?_, ?_⟩
  · intro m hm
    simp [resolveModelForTier, hm]
  · intro d h1 h2
    simp [resolveModelForTier, h1, h2]
  · intro g h1 h2 h3
    simp [resolveModelForTier, h1, h2, h3]
  · intro h1 h2 h3
    simp [resolveModelForTier, h1, h2, h3]
  · intro tc htc hne hparse
    simp [tierOverride, htc, hne, hparse]

/-- Witness for C9: a T2 override string `"ollama/llama3"` parses and
wins the resolution chain. -/
theorem resolveModelForTier_chain_witness :
    tierOverride .t2
        ⟨none, none,
          (fun tier => if tier = .t2 then some ⟨"ollama/llama3", none⟩ else none),
          none, none, none⟩ = some ⟨"ollama", "llama3"⟩ ∧
    resolveModelForTier .t2
        ⟨none, none,
          (fun tier => if tier = .t2 then some ⟨"ollama/llama3", none⟩ else none),
          none, none, none⟩ ⟨none⟩ = ⟨"ollama", "llama3"⟩ :=
  ⟨by decide,
   (resolveModelForTier_chain .t2
      ⟨none, none,
        (fun tier => if tier = .t2 then some ⟨"ollama/llama3", none⟩ else none),
        none, none, none⟩ ⟨none⟩).1 ⟨"ollama", "llama3"⟩ (by decide)⟩

/-- `routeMessage` on the session-override branch. -/
lemma routeMessage_override_eq (p : RouterParams) (ovr : ModelRef)
    (hov : p.sessionModelOverride = some ovr) :
    routeMessage p =
      ⟨ovr, .t3, .t3, classifyIntent p.message,
       adaptPromptForTier p.systemPrompt .t3, true,
       some "session model override"⟩ := by
  unfold routeMessage
  rw [hov]

/-- `routeMessage` on the explicit-intent bypass branch. -/
lemma routeMessage_explicit_eq (p : RouterParams)
    (hov : p.sessionModelOverride = none)
    (hex : (classifyIntent p.message).intent = .explicit) :
    routeMessage p =
      ⟨resolveModelForTier .t3 p.routingConfig p.cfg, .t3, .t3,
       classifyIntent p.message, adaptPromptForTier p.systemPrompt .t3, true,
       some "explicit model request in message"⟩ := by
  unfold routeMessage
  rw [hov]
  simp only [hex, if_true]

/-- `routeMessage` on the normal routing branch. -/
lemma routeMessage_normal_eq (p : RouterParams)
    (hov : p.sessionModelOverride = none)
    (hex : ¬ (classifyIntent p.message).intent = .explicit) :
    routeMessage p =
      ⟨resolveModelForTier
          (applyBudgetConstraints
            (applyBias (resolveMinTierForIntent (classifyIntent p.message).intent)
              (p.routingConfig.bias.getD .balanced)) p.routingConfig)
          p.routingConfig p.cfg,
       applyBudgetConstraints
          (applyBias (resolveMinTierForIntent (classifyIntent p.message).intent)
            (p.routingConfig.bias.getD .balanced)) p.routingConfig,
       resolveMinTierForIntent (classifyIntent p.message).intent,
       classifyIntent p.message, adaptPromptForTier p.systemPrompt
          (applyBudgetConstraints
            (applyBias (resolveMinTierForIntent (classifyIntent p.message).intent)
              (p.routingConfig.bias.getD .balanced)) p.routingConfig),
       false, none⟩ := by
  unfold routeMessage
  rw [hov]
  simp only [hex, if_false]

/-- C4: every routing decision satisfies the bypass invariant —
`bypassed` implies `tier = originalTier` and a non-empty
`bypassReason`; `bypassed = false` implies no `bypassReason` is set. -/
theorem routeMessage_bypass_invariant (p : RouterParams) :
    ((routeMessage p).bypassed = true →
       (routeMessage p).tier = (routeMessage p).originalTier ∧
       ∃ r, (routeMessage p).bypassReason = some r ∧ r ≠ "") ∧
    ((routeMessage p).bypassed = false → (routeMessage p).bypassReason = none) := by
  rcases hov : p.sessionModelOverride with _ | ovr
  · by_cases hex : (classifyIntent p.message).intent = .explicit
    · rw [routeMessage_explicit_eq p hov hex]
      refine ⟨fun _ => ⟨rfl, ⟨"explicit model request in message", rfl, by decide⟩⟩,
              fun h => ?_⟩
      simp at h
    · rw [routeMessage_normal_eq p hov hex]
      refine ⟨fun h => ?_, fun _ => rfl⟩
      simp at h
  · rw [routeMessage_override_eq p ovr hov]
    refine ⟨fun _ => ⟨rfl, ⟨"session model override", rfl, by decide⟩⟩,
            fun h => ?_⟩
    simp at h

/-- Witness for C4: a session override bypasses with tier equal to the
original tier and the non-empty reason. -/
theorem routeMessage_bypass_invariant_witness :
    (routeMessage
        ⟨"hi", "You are helpful.", ⟨none⟩,
          ⟨none, none, fun _ => none, none, none, none⟩,
          some ⟨"anthropic", "claude-opus-4-5"⟩, none, none⟩).bypassed = true ∧
    ((routeMessage
        ⟨"hi", "You are helpful.", ⟨none⟩,
          ⟨none, none, fun _ => none, none, none, none⟩,
          some ⟨"anthropic", "claude-opus-4-5"⟩, none, none⟩).tier =
      (routeMessage
        ⟨"hi", "You are helpful.", ⟨none⟩,
          ⟨none, none, fun _ => none, none, none, none⟩,
          some ⟨"anthropic", "claude-opus-4-5"⟩, none, none⟩).originalTier ∧
     ∃ r, (routeMessage
        ⟨"hi", "You are helpful.", ⟨none⟩,
          ⟨none, none, fun _ => none, none, none, none⟩,
          some ⟨"anthropic", "claude-opus-4-5"⟩, none, none⟩).bypassReason = some r ∧
       r ≠ "") :=
  ⟨rfl,
   (routeMessage_bypass_invariant
      ⟨"hi", "You are helpful.", ⟨none⟩,
        ⟨none, none, fun _ => none, none, none, none⟩,
        some ⟨"anthropic", "claude-opus-4-5"⟩, none, none⟩).1 rfl⟩

/-! ### Classifier theorems (C6, C7, C10) -/

/-! Branch characterizations of `classifyBody`: one lemma per stage,
with hypotheses recording that every earlier stage was indecisive. -/

lemma classifyBody_empty (t : List Char) (h0 : t.length = 0) :
    classifyBody t = ⟨.trivial, 1, "empty message", []⟩ := by
  unfold classifyBody
  simp [h0]

lemma classifyBody_explicit (t : List Char) (h0 : ¬ t.length = 0)
    (h1 : explicitMatch t = true) :
    classifyBody t =
      ⟨.explicit, 1, "explicit model request",
        [⟨"explicit_model_request", 1, true⟩]⟩ := by
  unfold classifyBody
  simp [h0, h1]

lemma classifyBody_trivialPat (t : List Char) (h0 : ¬ t.length = 0)
    (h1 : explicitMatch t = false) (h2 : trivialMatch t = true) :
    classifyBody t =
      ⟨.trivial, mkRat 19 20, "trivial pattern match",
        [⟨"trivial_pattern", 1, true⟩]⟩ := by
  unfold classifyBody
  simp [h0, h1, h2]

lemma classifyBody_veryShort (t : List Char) (h0 : ¬ t.length = 0)
    (h1 : explicitMatch t = false) (h2 : trivialMatch t = false)
    (h3 : (decide (t.length < 10) && !(t.contains '?')) = true) :
    classifyBody t =
      ⟨.trivial, mkRat 4 5, "very short non-question",
        [⟨"very_short", mkRat 4 5, true⟩]⟩ := by
  unfold classifyBody
  simp only [h1, h2, h3]
  simp [h0]

lemma classifyBody_flagship (t : List Char) (h0 : ¬ t.length = 0)
    (h1 : explicitMatch t = false) (h2 : trivialMatch t = false)
    (h3 : (decide (t.length < 10) && !(t.contains '?')) = false)
    (h4 : 40 ≤ flagshipScore100 t) :
    classifyBody t =
      ⟨.flagship, mkRat (min 95 (60 + (flagshipScore100 t : ℤ))) 100,
        "flagship keyword match", flagshipSignalsOf t⟩ := by
  unfold classifyBody
  simp only [h1, h2, h3]
  simp [h0, h4]

lemma classifyBody_complex (t : List Char) (h0 : ¬ t.length = 0)
    (h1 : explicitMatch t = false) (h2 : trivialMatch t = false)
    (h3 : (decide (t.length < 10) && !(t.contains '?')) = false)
    (h4 : ¬ 40 ≤ flagshipScore100 t) (h5 : 50 ≤ complexScore100 t) :
    classifyBody t =
      ⟨.complex, mkRat (min 900 (500 + 4 * (complexScore100 t : ℤ))) 1000,
        "complex signal accumulation", accumulatedSignalsOf t⟩ := by
  unfold classifyBody
  simp only [h1, h2, h3]
  simp [h0, h4, h5]

lemma classifyBody_simplePat (t : List Char) (h0 : ¬ t.length = 0)
    (h1 : explicitMatch t = false) (h2 : trivialMatch t = false)
    (h3 : (decide (t.length < 10) && !(t.contains '?')) = false)
    (h4 : ¬ 40 ≤ flagshipScore100 t) (h5 : ¬ 50 ≤ complexScore100 t)
    (h6 : simpleMatch t = true) :
    classifyBody t =
      ⟨.simple, mkRat 4 5, "simple pattern match",
        accumulatedSignalsOf t ++ [⟨"simple_pattern", mkRat 7 10, true⟩]⟩ := by
  unfold classifyBody
  simp only [h1, h2, h3, h6]
  simp [h0, h4, h5]

lemma classifyBody_shortNoComplexity (t : List Char) (h0 : ¬ t.length = 0)
    (h1 : explicitMatch t = false) (h2 : trivialMatch t = false)
    (h3 : (decide (t.length < 10) && !(t.contains '?')) = false)
    (h4 : ¬ 40 ≤ flagshipScore100 t) (h5 : ¬ 50 ≤ complexScore100 t)
    (h6 : simpleMatch t = false)
    (h7 : (decide (wordCount t ≤ 15) && decide (complexScore100 t < 25)) = true) :
    classifyBody t =
      ⟨.simple, mkRat 7 10, "short message without complexity",
        accumulatedSignalsOf t ++ [⟨"short_no_complexity", mkRat 3 5, true⟩]⟩ := by
  unfold classifyBody
  simp only [h1, h2, h3, h6, h7]
  simp [h0, h4, h5]

lemma classifyBody_standard (t : List Char) (h0 : ¬ t.length = 0)
    (h1 : explicitMatch t = false) (h2 : trivialMatch t = false)
    (h3 : (decide (t.length < 10) && !(t.contains '?')) = false)
    (h4 : ¬ 40 ≤ flagshipScore100 t) (h5 : ¬ 50 ≤ complexScore100 t)
    (h6 : simpleMatch t = false)
    (h7 : (decide (wordCount t ≤ 15) && decide (complexScore100 t < 25)) = false) :
    classifyBody t =
      ⟨.standard, mkRat 3 5, "no strong signal — default to standard",
        accumulatedSignalsOf t⟩ := by
  unfold classifyBody
  simp only [h1, h2, h3, h6, h7]
  simp [h0, h4, h5]

/-- Case analysis driver: any property closed under the nine branch
results holds of `classifyBody t`. -/
lemma classifyBody_cases (P : ClassificationResult → Prop) (t : List Char)
    (hEmpty : P ⟨.trivial, 1, "empty message", []⟩)
    (hExplicit : P ⟨.explicit, 1, "explicit model request",
        [⟨"explicit_model_request", 1, true⟩]⟩)
    (hTrivial : P ⟨.trivial, mkRat 19 20, "trivial pattern match",
        [⟨"trivial_pattern", 1, true⟩]⟩)
    (hShort : P ⟨.trivial, mkRat 4 5, "very short non-question",
        [⟨"very_short", mkRat 4 5, true⟩]⟩)
    (hFlagship : ∀ k : Nat, P ⟨.flagship, mkRat (min 95 (60 + (k : ℤ))) 100,
        "flagship keyword match", flagshipSignalsOf t⟩)
    (hComplex : ∀ k : Nat, P ⟨.complex, mkRat (min 900 (500 + 4 * (k : ℤ))) 1000,
        "complex signal accumulation", accumulatedSignalsOf t⟩)
    (hSimple : P ⟨.simple, mkRat 4 5, "simple pattern match",
        accumulatedSignalsOf t ++ [⟨"simple_pattern", mkRat 7 10, true⟩]⟩)
    (hShortNC : P ⟨.simple, mkRat 7 10, "short message without complexity",
        accumulatedSignalsOf t ++ [⟨"short_no_complexity", mkRat 3 5, true⟩]⟩)
    (hStandard : P ⟨.standard, mkRat 3 5, "no strong signal — default to standard",
        accumulatedSignalsOf t⟩) :
    P (classifyBody t) := by
  by_cases h0 : t.length = 0
  · rw [classifyBody_empty t h0]; exact hEmpty
  by_cases h1 : explicitMatch t = true
  · rw [classifyBody_explicit t h0 h1]; exact hExplicit
  replace h1 := Bool.eq_false_iff.mpr h1
  by_cases h2 : trivialMatch t = true
  · rw [classifyBody_trivialPat t h0 h1 h2]; exact hTrivial
  replace h2 := Bool.eq_false_iff.mpr h2
  by_cases h3 : (decide (t.length < 10) && !(t.contains '?')) = true
  · rw [classifyBody_veryShort t h0 h1 h2 h3]; exact hShort
  replace h3 := Bool.eq_false_iff.mpr h3
  by_cases h4 : 40 ≤ flagshipScore100 t
  · rw [classifyBody_flagship t h0 h1 h2 h3 h4]; exact hFlagship _
  by_cases h5 : 50 ≤ complexScore100 t
  · rw [classifyBody_complex t h0 h1 h2 h3 h4 h5]; exact hComplex _
  by_cases h6 : simpleMatch t = true
  · rw [classifyBody_simplePat t h0 h1 h2 h3 h4 h5 h6]; exact hSimple
  replace h6 := Bool.eq_false_iff.mpr h6
  by_cases h7 : (decide (wordCount t ≤ 15) && decide (complexScore100 t < 25)) = true
  · rw [classifyBody_shortNoComplexity t h0 h1 h2 h3 h4 h5 h6 h7]; exact hShortNC
  replace h7 := Bool.eq_false_iff.mpr h7
  rw [classifyBody_standard t h0 h1 h2 h3 h4 h5 h6 h7]
  exact hStandard

lemma mkRat_mem_unit {n : ℤ} {d : ℕ} (hd : 0 < d) (h0 : 0 ≤ n) (h : n ≤ d) :
    0 ≤ mkRat n d ∧ mkRat n d ≤ 1 := by
  rw [Rat.mkRat_eq_div]
  constructor
  · positivity
  · rw [div_le_one (by exact_mod_cast hd)]
    exact_mod_cast h

/-- C6: `classifyIntent` is total (a Lean function), and for every
input string the confidence lies in `[0, 1]` and the reason is
non-empty. -/
theorem classifyIntent_confidence_reason (s : String) :
    0 ≤ (classifyIntent s).confidence ∧ (classifyIntent s).confidence ≤ 1 ∧
      (classifyIntent s).reason ≠ "" := by
  unfold classifyIntent
  refine classifyBody_cases
    (fun r => 0 ≤ r.confidence ∧ r.confidence ≤ 1 ∧ r.reason ≠ "")
    (trimL s.data) ?_ ?_ ?_ ?_ ?_ ?_ ?_ ?_ ?_
  · exact ⟨(by norm_num : (0:ℚ) ≤ 1), le_refl 1,
           (by decide : ("empty message" : String) ≠ "")⟩
  · exact ⟨(by norm_num : (0:ℚ) ≤ 1), le_refl 1,
           (by decide : ("explicit model request" : String) ≠ "")⟩
  · exact ⟨(by decide : (0:ℚ) ≤ mkRat 19 20), (by decide : mkRat 19 20 ≤ (1:ℚ)),
           (by decide : ("trivial pattern match" : String) ≠ "")⟩
  · exact ⟨(by decide : (0:ℚ) ≤ mkRat 4 5), (by decide : mkRat 4 5 ≤ (1:ℚ)),
           (by decide : ("very short non-question" : String) ≠ "")⟩
  · intro k
    obtain ⟨ha, hb⟩ := mkRat_mem_unit (n := min 95 (60 + (k : ℤ))) (d := 100)
      (by norm_num)
      (le_min (by norm_num) (by positivity))
      (le_trans (min_le_left _ _) (by norm_num))
    exact ⟨ha, hb, (by decide : ("flagship keyword match" : String) ≠ "")⟩
  · intro k
    obtain ⟨ha, hb⟩ := mkRat_mem_unit (n := min 900 (500 + 4 * (k : ℤ))) (d := 1000)
      (by norm_num)
      (le_min (by norm_num) (by positivity))
      (le_trans (min_le_left _ _) (by norm_num))
    exact ⟨ha, hb, (by decide : ("complex signal accumulation" : String) ≠ "")⟩
  · exact ⟨(by decide : (0:ℚ) ≤ mkRat 4 5), (by decide : mkRat 4 5 ≤ (1:ℚ)),
           (by decide : ("simple pattern match" : String) ≠ "")⟩
  · exact ⟨(by decide : (0:ℚ) ≤ mkRat 7 10), (by decide : mkRat 7 10 ≤ (1:ℚ)),
           (by decide : ("short message without complexity" : String) ≠ "")⟩
  · exact ⟨(by decide : (0:ℚ) ≤ mkRat 3 5), (by decide : mkRat 3 5 ≤ (1:ℚ)),
           (by decide : ("no strong signal — default to standard" : String) ≠ "")⟩

lemma flagship_names_prefixed :
    ∀ p ∈ FLAGSHIP_PATTERNS, (wchars "flagship:").isPrefixOf p.name.data = true := by
  decide

/-- C7 (amended): the signal trace never contains entries from stages
after the deciding one, and the two accumulation stages record one
entry per pattern check (matched or not) once reached, while the early
decisive stages record only the matching check.  Exactly: an explicit
decision carries only the matched explicit signal; a trivial decision
carries at most the single matched trivial-stage signal; a flagship
decision carries exactly one entry per flagship pattern check with the
check's outcome and nothing else; a complex decision carries exactly
the ten flagship entries, one entry per complex pattern check with its
outcome, and the fired length/code-block/question/numbered-list
heuristic entries — no simple-stage or default entries; a simple
decision adds exactly its one matched simple-stage signal after the
accumulated entries; a standard decision adds nothing after them. -/
theorem classifyIntent_signal_trace (s : String) :
    ((classifyIntent s).intent = .explicit →
       (classifyIntent s).signals = [⟨"explicit_model_request", 1, true⟩]) ∧
    ((classifyIntent s).intent = .trivial →
       (classifyIntent s).signals = [] ∨
       (classifyIntent s).signals = [⟨"trivial_pattern", 1, true⟩] ∨
       (classifyIntent s).signals = [⟨"very_short", mkRat 4 5, true⟩]) ∧
    ((classifyIntent s).intent = .flagship →
       (classifyIntent s).signals =
         FLAGSHIP_PATTERNS.map
           (fun p => ⟨p.name, mkRat 2 5, p.test (trimL s.data)⟩)) ∧
    ((classifyIntent s).intent = .complex →
       (classifyIntent s).signals =
         FLAGSHIP_PATTERNS.map
             (fun p => ⟨p.name, mkRat 2 5, p.test (trimL s.data)⟩) ++
           COMPLEX_PATTERNS.map
             (fun p => ⟨p.name, mkRat 1 4, p.test (trimL s.data)⟩) ++
           lengthSignalsOf (trimL s.data) ++ codeBlockSignalsOf (trimL s.data) ++
           multiQSignalsOf (trimL s.data) ++ numberedSignalsOf (trimL s.data)) ∧
    ((classifyIntent s).intent = .simple →
       (classifyIntent s).signals =
         FLAGSHIP_PATTERNS.map
             (fun p => ⟨p.name, mkRat 2 5, p.test (trimL s.data)⟩) ++
           COMPLEX_PATTERNS.map
             (fun p => ⟨p.name, mkRat 1 4, p.test (trimL s.data)⟩) ++
           lengthSignalsOf (trimL s.data) ++ codeBlockSignalsOf (trimL s.data) ++
           multiQSignalsOf (trimL s.data) ++ numberedSignalsOf (trimL s.data) ++
           [⟨"simple_pattern", mkRat 7 10, true⟩] ∨
       (classifyIntent s).signals =
         FLAGSHIP_PATTERNS.map
             (fun p => ⟨p.name, mkRat 2 5, p.test (trimL s.data)⟩) ++
           COMPLEX_PATTERNS.map
             (fun p => ⟨p.name, mkRat 1 4, p.test (trimL s.data)⟩) ++
           lengthSignalsOf (trimL s.data) ++ codeBlockSignalsOf (trimL s.data) ++
           multiQSignalsOf (trimL s.data) ++ numberedSignalsOf (trimL s.data) ++
           [⟨"short_no_complexity", mkRat 3 5, true⟩]) ∧
    ((classifyIntent s).intent = .standard →
       (classifyIntent s).signals =
         FLAGSHIP_PATTERNS.map
             (fun p => ⟨p.name, mkRat 2 5, p.test (trimL s.data)⟩) ++
           COMPLEX_PATTERNS.map
             (fun p => ⟨p.name, mkRat 1 4, p.test (trimL s.data)⟩) ++
           lengthSignalsOf (trimL s.data) ++ codeBlockSignalsOf (trimL s.data) ++
           multiQSignalsOf (trimL s.data) ++ numberedSignalsOf (trimL s.data)) := by
  unfold classifyIntent
  refine classifyBody_cases
    (fun r =>
      (r.intent = .explicit →
        r.signals = [⟨"explicit_model_request", 1, true⟩]) ∧
      (r.intent = .trivial →
        r.signals = [] ∨
        r.signals = [⟨"trivial_pattern", 1, true⟩] ∨
        r.signals = [⟨"very_short", mkRat 4 5, true⟩]) ∧
      (r.intent = .flagship →
        r.signals =
          FLAGSHIP_PATTERNS.map
            (fun p => ⟨p.name, mkRat 2 5, p.test (trimL s.data)⟩)) ∧
      (r.intent = .complex →
        r.signals =
          FLAGSHIP_PATTERNS.map
              (fun p => ⟨p.name, mkRat 2 5, p.test (trimL s.data)⟩) ++
            COMPLEX_PATTERNS.map
              (fun p => ⟨p.name, mkRat 1 4, p.test (trimL s.data)⟩) ++
            lengthSignalsOf (trimL s.data) ++ codeBlockSignalsOf (trimL s.data) ++
            multiQSignalsOf (trimL s.data) ++ numberedSignalsOf (trimL s.data)) ∧
      (r.intent = .simple →
        r.signals =
          FLAGSHIP_PATTERNS.map
              (fun p => ⟨p.name, mkRat 2 5, p.test (trimL s.data)⟩) ++
            COMPLEX_PATTERNS.map
              (fun p => ⟨p.name, mkRat 1 4, p.test (trimL s.data)⟩) ++
            lengthSignalsOf (trimL s.data) ++ codeBlockSignalsOf (trimL s.data) ++
            multiQSignalsOf (trimL s.data) ++ numberedSignalsOf (trimL s.data) ++
            [⟨"simple_pattern", mkRat 7 10, true⟩] ∨
        r.signals =
          FLAGSHIP_PATTERNS.map
              (fun p => ⟨p.name, mkRat 2 5, p.test (trimL s.data)⟩) ++
            COMPLEX_PATTERNS.map
              (fun p => ⟨p.name, mkRat 1 4, p.test (trimL s.data)⟩) ++
            lengthSignalsOf (trimL s.data) ++ codeBlockSignalsOf (trimL s.data) ++
            multiQSignalsOf (trimL s.data) ++ numberedSignalsOf (trimL s.data) ++
            [⟨"short_no_complexity", mkRat 3 5, true⟩]) ∧
      (r.intent = .standard →
        r.signals =
          FLAGSHIP_PATTERNS.map
              (fun p => ⟨p.name, mkRat 2 5, p.test (trimL s.data)⟩) ++
            COMPLEX_PATTERNS.map
              (fun p => ⟨p.name, mkRat 1 4, p.test (trimL s.data)⟩) ++
            lengthSignalsOf (trimL s.data) ++ codeBlockSignalsOf (trimL s.data) ++
            multiQSignalsOf (trimL s.data) ++ numberedSignalsOf (trimL s.data)))
    (trimL s.data) ?_ ?_ ?_ ?_ ?_ ?_ ?_ ?_ ?_
  · exact ⟨fun h => absurd h (by decide : IntentComplexity.trivial ≠ .explicit),
           fun _ => Or.inl rfl,
           fun h => absurd h (by decide : IntentComplexity.trivial ≠ .flagship),
           fun h => absurd h (by decide : IntentComplexity.trivial ≠ .complex),
           fun h => absurd h (by decide : IntentComplexity.trivial ≠ .simple),
           fun h => absurd h (by decide : IntentComplexity.trivial ≠ .standard)⟩
  · exact ⟨fun _ => rfl,
           fun h => absurd h (by decide : IntentComplexity.explicit ≠ .trivial),
           fun h => absurd h (by decide : IntentComplexity.explicit ≠ .flagship),
           fun h => absurd h (by decide : IntentComplexity.explicit ≠ .complex),
           fun h => absurd h (by decide : IntentComplexity.explicit ≠ .simple),
           fun h => absurd h (by decide : IntentComplexity.explicit ≠ .standard)⟩
  · exact ⟨fun h => absurd h (by decide : IntentComplexity.trivial ≠ .explicit),
           fun _ => Or.inr (Or.inl rfl),
           fun h => absurd h (by decide : IntentComplexity.trivial ≠ .flagship),
           fun h => absurd h (by decide : IntentComplexity.trivial ≠ .complex),
           fun h => absurd h (by decide : IntentComplexity.trivial ≠ .simple),
           fun h => absurd h (by decide : IntentComplexity.trivial ≠ .standard)⟩
  · exact ⟨fun h => absurd h (by decide : IntentComplexity.trivial ≠ .explicit),
           fun _ => Or.inr (Or.inr rfl),
           fun h => absurd h (by decide : IntentComplexity.trivial ≠ .flagship),
           fun h => absurd h (by decide : IntentComplexity.trivial ≠ .complex),
           fun h => absurd h (by decide : IntentComplexity.trivial ≠ .simple),
           fun h => absurd h (by decide : IntentComplexity.trivial ≠ .standard)⟩
  · intro _
    exact ⟨fun h => absurd h (by decide : IntentComplexity.flagship ≠ .explicit),
           fun h => absurd h (by decide : IntentComplexity.flagship ≠ .trivial),
           fun _ => rfl,
           fun h => absurd h (by decide : IntentComplexity.flagship ≠ .complex),
           fun h => absurd h (by decide : IntentComplexity.flagship ≠ .simple),
           fun h => absurd h (by decide : IntentComplexity.flagship ≠ .standard)⟩
  · intro _
    exact ⟨fun h => absurd h (by decide : IntentComplexity.complex ≠ .explicit),
           fun h => absurd h (by decide : IntentComplexity.complex ≠ .trivial),
           fun h => absurd h (by decide : IntentComplexity.complex ≠ .flagship),
           fun _ => rfl,
           fun h => absurd h (by decide : IntentComplexity.complex ≠ .simple),
           fun h => absurd h (by decide : IntentComplexity.complex ≠ .standard)⟩
  · exact ⟨fun h => absurd h (by decide : IntentComplexity.simple ≠ .explicit),
           fun h => absurd h (by decide : IntentComplexity.simple ≠ .trivial),
           fun h => absurd h (by decide : IntentComplexity.simple ≠ .flagship),
           fun h => absurd h (by decide : IntentComplexity.simple ≠ .complex),
           fun _ => Or.inl rfl,
           fun h => absurd h (by decide : IntentComplexity.simple ≠ .standard)⟩
  · exact ⟨fun h => absurd h (by decide : IntentComplexity.simple ≠ .explicit),
           fun h => absurd h (by decide : IntentComplexity.simple ≠ .trivial),
           fun h => absurd h (by decide : IntentComplexity.simple ≠ .flagship),
           fun h => absurd h (by decide : IntentComplexity.simple ≠ .complex),
           fun _ => Or.inr rfl,
           fun h => absurd h (by decide : IntentComplexity.simple ≠ .standard)⟩
  · exact ⟨fun h => absurd h (by decide : IntentComplexity.standard ≠ .explicit),
           fun h => absurd h (by decide : IntentComplexity.standard ≠ .trivial),
           fun h => absurd h (by decide : IntentComplexity.standard ≠ .flagship),
           fun h => absurd h (by decide : IntentComplexity.standard ≠ .complex),
           fun h => absurd h (by decide : IntentComplexity.standard ≠ .simple),
           fun _ => rfl⟩

/-- Witness for C7 (amended): the message `/model opus` decides at the
explicit stage with exactly the matched explicit signal. -/
theorem classifyIntent_signal_trace_witness :
    (classifyIntent "/model opus").intent = .explicit ∧
    (classifyIntent "/model opus").signals = [⟨"explicit_model_request", 1, true⟩] :=
  ⟨by decide, (classifyIntent_signal_trace "/model opus").1 (by decide)⟩

/-- Counterexample for C7 as stated: for `"hi"` the three explicit
pattern checks and the first greeting-pattern check are performed
before the deciding trivial match, yet the trace records only the
single matched check — no `explicit_model_request` entry (and no
unmatched entry at all) is present. -/
theorem classifyIntent_signal_trace_counterexample :
    (classifyIntent "hi").signals = [⟨"trivial_pattern", 1, true⟩] ∧
    (classifyIntent "hi").signals.length = 1 ∧
    ∀ sig ∈ (classifyIntent "hi").signals,
      sig.name ≠ "explicit_model_request" ∧ sig.matched = true := by
  refine ⟨by decide, by decide, ?_⟩
  decide

/-! ### C10: digit-and-whitespace messages -/

lemma isJsSpace_toNat_facts {c : Char} (h : isJsSpace c = true) :
    c.toNat = 32 ∨ c.toNat = 9 ∨ c.toNat = 10 ∨ c.toNat = 11 ∨ c.toNat = 12 ∨
      c.toNat = 13 ∨ 160 ≤ c.toNat := by
  unfold isJsSpace at h
  simp only [Bool.or_eq_true, decide_eq_true_eq, Bool.and_eq_true] at h
  rcases h with
    ((((((((((((((h | h) | h) | h) | h) | h) | h) | h) | ⟨h, _⟩) | h) | h) | h) | h) | h) | h) <;>
    omega

lemma isAsciiDigit_toNat {c : Char} (h : isAsciiDigit c = true) :
    48 ≤ c.toNat ∧ c.toNat ≤ 57 := by
  unfold isAsciiDigit at h
  simp only [Bool.and_eq_true, decide_eq_true_eq] at h
  exact h

lemma isAsciiDigit_not_space {c : Char} (h : isAsciiDigit c = true) :
    isJsSpace c = false := by
  obtain ⟨h1, h2⟩ := isAsciiDigit_toNat h
  cases hs : isJsSpace c
  · rfl
  · rcases isJsSpace_toNat_facts hs with h3 | h3 | h3 | h3 | h3 | h3 | h3 <;> omega

lemma toLower_id_of_digit_or_space {c : Char}
    (h : isAsciiDigit c = true ∨ isJsSpace c = true) : c.toLower = c := by
  have hn : c.toNat < 65 ∨ 90 < c.toNat := by
    rcases h with h | h
    · obtain ⟨_, h2⟩ := isAsciiDigit_toNat h
      omega
    · rcases isJsSpace_toNat_facts h with h | h | h | h | h | h | h <;> omega
  simp only [Char.toLower]
  rw [if_neg]
  omega

lemma isAsciiDigit_emoji {c : Char} (h : isAsciiDigit c = true) :
    isEmojiChar c = true := by
  obtain ⟨h1, h2⟩ := isAsciiDigit_toNat h
  unfold isEmojiChar
  simp only [Bool.or_eq_true, decide_eq_true_eq, Bool.and_eq_true]
  omega

lemma trimL_subset {l : List Char} : ∀ c ∈ trimL l, c ∈ l := by
  intro c hc
  unfold trimL dropTrailWhile at hc
  rw [List.mem_reverse] at hc
  have hc2 := (List.dropWhile_sublist _).mem hc
  rw [List.mem_reverse] at hc2
  exact (List.dropWhile_sublist _).mem hc2

lemma trimL_ne_nil {l : List Char} {c : Char} (hc : c ∈ l)
    (hns : isJsSpace c = false) : trimL l ≠ [] := by
  intro h
  unfold trimL dropTrailWhile at h
  rw [List.reverse_eq_nil_iff, List.dropWhile_eq_nil_iff] at h
  have hcmem : c ∈ l.dropWhile isJsSpace := by
    rcases List.mem_append.mp
        ((List.takeWhile_append_dropWhile (p := isJsSpace) (l := l)) ▸ hc) with
      hmem | hmem
    · exact absurd (List.mem_takeWhile_imp hmem) (by simp [hns])
    · exact hmem
  exact absurd (h c (List.mem_reverse.mpr hcmem)) (by simp [hns])

lemma lowerL_id_of_digitspace {l : List Char}
    (hall : ∀ c ∈ l, isAsciiDigit c = true ∨ isJsSpace c = true) :
    lowerL l = l := by
  induction l with
  | nil => rfl
  | cons c rest ih =>
    unfold lowerL
    simp only [List.map_cons]
    rw [toLower_id_of_digit_or_space (hall c (List.mem_cons_self c rest))]
    have := ih (fun d hd => hall d (List.mem_cons_of_mem c hd))
    unfold lowerL at this
    rw [this]

lemma prefix_head_mem {d : Char} {ds l : List Char}
    (h : (d :: ds).isPrefixOf l = true) : d ∈ l := by
  cases l with
  | nil => exact absurd h (by simp [List.isPrefixOf])
  | cons c cs =>
    have : (d == c) = true := by
      have h2 := h
      unfold List.isPrefixOf at h2
      simp only [Bool.and_eq_true] at h2
      exact h2.1
    rw [beq_iff_eq] at this
    subst this
    exact List.mem_cons_self d cs

lemma tryWordsAt_eq_false (prev : Option Char) (l : List Char)
    (vs : List (List (List Char)))
    (hv : ∀ v ∈ vs, ∃ d ds ws, v = (d :: ds) :: ws ∧ d ∉ l) :
    tryWordsAt prev l vs = false := by
  unfold tryWordsAt
  cases hn : nonWordOpt prev
  · simp
  · simp only [Bool.true_and]
    rw [List.any_eq_false]
    intro v hvv
    obtain ⟨d, ds, ws, rfl, hd⟩ := hv v hvv
    have hp : (d :: ds).isPrefixOf l = false := by
      cases hbe : (d :: ds).isPrefixOf l
      · rfl
      · exact absurd (prefix_head_mem hbe) hd
    have hsm : seqMatch ((d :: ds) :: ws) l = none := by
      unfold seqMatch
      simp [hp]
    simp [hsm]

lemma scanWords_eq_false (l : List Char) (prev : Option Char)
    (vs : List (List (List Char)))
    (hv : ∀ v ∈ vs, ∃ d ds ws, v = (d :: ds) :: ws ∧ d ∉ l) :
    scanWords prev l vs = false := by
  induction l generalizing prev with
  | nil => exact tryWordsAt_eq_false prev [] vs hv
  | cons c rest ih =>
    unfold scanWords
    rw [tryWordsAt_eq_false prev (c :: rest) vs hv, Bool.false_or]
    exact ih (some c) (fun v hvv => by
      obtain ⟨d, ds, ws, rfl, hd⟩ := hv v hvv
      exact ⟨d, ds, ws, rfl, fun hm => hd (List.mem_cons_of_mem c hm)⟩)

lemma explicitMatch_digitspace (t : List Char)
    (hall : ∀ c ∈ t, isAsciiDigit c = true ∨ isJsSpace c = true) :
    explicitMatch t = false := by
  have hlow : lowerL t = t := lowerL_id_of_digitspace hall
  have hnotc : ∀ d : Char, isAsciiDigit d = false → isJsSpace d = false → d ∉ t := by
    intro d hd1 hd2 hm
    rcases hall d hm with h | h
    · rw [hd1] at h; exact absurd h (by decide)
    · rw [hd2] at h; exact absurd h (by decide)
  unfold explicitMatch
  have h1 : explicitPat1 t = false := by
    unfold explicitPat1
    rw [hlow]
    cases ht : t with
    | nil => rfl
    | cons c rest =>
      have hc : ¬ c = '/' := by
        intro hcc
        subst hcc
        exact hnotc '/' (by decide) (by decide) (ht ▸ List.mem_cons_self _ _)
      simp [hc]
  have h2 : explicitPat2 t = false := by
    unfold explicitPat2 hasSpacedWords
    rw [hlow]
    refine scanWords_eq_false t none _ ?_
    intro v hv
    simp only [List.mem_cons, List.not_mem_nil, or_false] at hv
    rcases hv with rfl | rfl | rfl | rfl | rfl <;>
      exact ⟨'u', _, _, rfl, hnotc 'u' (by decide) (by decide)⟩
  have h3 : explicitPat3 t = false := by
    unfold explicitPat3 hasSpacedWords
    rw [hlow]
    refine scanWords_eq_false t none _ ?_
    intro v hv
    simp only [List.mem_cons, List.not_mem_nil, or_false] at hv
    rcases hv with rfl | rfl | rfl <;>
      exact ⟨'s', _, _, rfl, hnotc 's' (by decide) (by decide)⟩
  rw [h1, h2, h3]
  rfl

lemma trivialMatch_digitspace (t : List Char) (hne : t ≠ [])
    (hall : ∀ c ∈ t, isAsciiDigit c = true ∨ isJsSpace c = true) :
    trivialMatch t = true := by
  have hemoji : emojiOnly t = true := by
    unfold emojiOnly
    rw [Bool.and_eq_true]
    constructor
    · cases t with
      | nil => exact absurd rfl hne
      | cons c rest => rfl
    · rw [List.all_eq_true]
      intro c hc
      rcases hall c hc with h | h
      · simp [isAsciiDigit_emoji h]
      · simp [h]
  unfold trivialMatch
  rw [hemoji]
  simp

/-- C10 (amended): every message consisting only of ASCII digits and
whitespace and containing at least one digit classifies as `trivial`
with confidence 0.95 and reason `"trivial pattern match"` — the digits
carry the Unicode `Emoji` property, so the emoji-only trivial pattern
fires before any length or simple-pattern stage. -/
theorem classifyIntent_digits_trivial (s : String)
    (hall : ∀ c ∈ s.data, isAsciiDigit c = true ∨ isJsSpace c = true)
    (hdig : ∃ c ∈ s.data, isAsciiDigit c = true) :
    classifyIntent s =
      ⟨.trivial, mkRat 19 20, "trivial pattern match",
        [⟨"trivial_pattern", 1, true⟩]⟩ := by
  obtain ⟨d, hdm, hdd⟩ := hdig
  have hallt : ∀ c ∈ trimL s.data, isAsciiDigit c = true ∨ isJsSpace c = true :=
    fun c hc => hall c (trimL_subset c hc)
  have hne : trimL s.data ≠ [] := trimL_ne_nil hdm (isAsciiDigit_not_space hdd)
  have hlen : ¬ (trimL s.data).length = 0 := by
    simpa [List.length_eq_zero] using hne
  unfold classifyIntent
  exact classifyBody_trivialPat (trimL s.data) hlen
    (explicitMatch_digitspace _ hallt)
    (trivialMatch_digitspace _ hne hallt)

/-- Witness for C10 (amended): the message `"123"`. -/
theorem classifyIntent_digits_trivial_witness :
    (∀ c ∈ ("123" : String).data, isAsciiDigit c = true ∨ isJsSpace c = true) ∧
    classifyIntent "123" =
      ⟨.trivial, mkRat 19 20, "trivial pattern match",
        [⟨"trivial_pattern", 1, true⟩]⟩ :=
  ⟨by decide, classifyIntent_digits_trivial "123" (by decide) (by decide)⟩

/-! ### C1: exact-match header stripping -/

lemma stripLoop_cons (line : List Char) (rest : List (List Char)) (skip : Bool) :
    stripLoop (line :: rest) skip =
      match headerNorm line with
      | some raw =>
        if STRIPPABLE_SECTION_HEADERS.contains raw then stripLoop rest true
        else line :: stripLoop rest false
      | none =>
        if skip then stripLoop rest skip else line :: stripLoop rest skip := rfl

lemma stripLoop_cons_nonheader {line : List Char} (rest : List (List Char))
    (skip : Bool) (h : headerNorm line = none) :
    stripLoop (line :: rest) skip =
      if skip then stripLoop rest skip else line :: stripLoop rest skip := by
  rw [stripLoop_cons, h]

lemma stripLoop_cons_keep {line raw : List Char} (rest : List (List Char))
    (skip : Bool) (h : headerNorm line = some raw)
    (hc : STRIPPABLE_SECTION_HEADERS.contains raw = false) :
    stripLoop (line :: rest) skip = line :: stripLoop rest false := by
  rw [stripLoop_cons, h]
  simp only [hc]
  simp

lemma stripLoop_cons_strip {line raw : List Char} (rest : List (List Char))
    (skip : Bool) (h : headerNorm line = some raw)
    (hc : STRIPPABLE_SECTION_HEADERS.contains raw = true) :
    stripLoop (line :: rest) skip = stripLoop rest true := by
  rw [stripLoop_cons, h]
  simp only [hc]
  simp

lemma keepHeaderLine_iff {line : List Char} (h : keepHeaderLine line = true) :
    ∃ raw, headerNorm line = some raw ∧
      STRIPPABLE_SECTION_HEADERS.contains raw = false := by
  unfold keepHeaderLine at h
  cases hn : headerNorm line with
  | none => rw [hn] at h; exact absurd h (by decide)
  | some raw =>
    rw [hn] at h
    exact ⟨raw, rfl, by simpa using h⟩

lemma strippableLine_iff {line : List Char} (h : strippableLine line = true) :
    ∃ raw, headerNorm line = some raw ∧
      STRIPPABLE_SECTION_HEADERS.contains raw = true := by
  unfold strippableLine at h
  cases hn : headerNorm line with
  | none => rw [hn] at h; exact absurd h (by decide)
  | some raw => rw [hn] at h; exact ⟨raw, rfl, h⟩

/-- While not skipping, the scan copies lines verbatim up to the next
header. -/
lemma stripLoop_false_takeWhile (B : List (List Char)) :
    stripLoop B false =
      B.takeWhile nonHeaderLine ++
        stripLoop (B.dropWhile nonHeaderLine) false := by
  induction B with
  | nil => rfl
  | cons b B' ih =>
    cases hb : headerNorm b with
    | none =>
      have hnb : nonHeaderLine b = true := by simp [nonHeaderLine, hb]
      rw [stripLoop_cons_nonheader B' false hb]
      simp only [if_neg (by decide : ¬ (false = true)), List.takeWhile_cons,
        List.dropWhile_cons, hnb, if_true]
      rw [ih]
      rfl
    | some raw =>
      have hnb : nonHeaderLine b = false := by simp [nonHeaderLine, hb]
      simp only [List.takeWhile_cons, List.dropWhile_cons, hnb]
      simp

/-- While skipping, the scan drops lines verbatim up to the next
header. -/
lemma stripLoop_true_dropWhile (B : List (List Char)) :
    stripLoop B true = stripLoop (B.dropWhile nonHeaderLine) true := by
  induction B with
  | nil => rfl
  | cons b B' ih =>
    cases hb : headerNorm b with
    | none =>
      have hnb : nonHeaderLine b = true := by simp [nonHeaderLine, hb]
      rw [stripLoop_cons_nonheader B' true hb]
      simp only [if_pos rfl, List.dropWhile_cons, hnb, if_true]
      exact ih
    | some raw =>
      have hnb : nonHeaderLine b = false := by simp [nonHeaderLine, hb]
      simp [List.dropWhile_cons, hnb]

/-- The incoming `skipping` state is irrelevant when the list is empty
or starts with a header line. -/
lemma stripLoop_skip_irrel (X : List (List Char))
    (hX : X = [] ∨ ∃ x xs, X = x :: xs ∧ nonHeaderLine x = false)
    (s s' : Bool) : stripLoop X s = stripLoop X s' := by
  rcases hX with rfl | ⟨x, xs, rfl, hx⟩
  · rfl
  · cases hn : headerNorm x with
    | none =>
      have h1 : nonHeaderLine x = true := by simp [nonHeaderLine, hn]
      rw [h1] at hx
      exact absurd hx (by decide)
    | some raw =>
      cases hc : STRIPPABLE_SECTION_HEADERS.contains raw
      · rw [stripLoop_cons_keep xs s hn hc, stripLoop_cons_keep xs s' hn hc]
      · rw [stripLoop_cons_strip xs s hn hc, stripLoop_cons_strip xs s' hn hc]

lemma dropWhile_head_not (p : List Char → Bool) (l : List (List Char)) :
    l.dropWhile p = [] ∨
      ∃ x xs, l.dropWhile p = x :: xs ∧ p x = false := by
  induction l with
  | nil => exact Or.inl rfl
  | cons a l' ih =>
    cases ha : p a
    · exact Or.inr ⟨a, l', by simp [List.dropWhile_cons, ha], ha⟩
    · simpa [List.dropWhile_cons, ha] using ih

/-- C1 (amended): section stripping is decided by exact set membership
of the normalized header.  For every decomposition of the line list
around a header line `hdr`: if `hdr`'s normalized text is *not* in
`STRIPPABLE_SECTION_HEADERS` then the whole section (the header and
every following line up to the next header) survives contiguously in
the output of the stripping scan; if it *is* in the set, the output is
exactly as if the section had been deleted from the input.  (At the
string level, `stripSectionsByHeader prompt` is by definition
`joinNL (stripLoop (splitNL prompt) false)`.) -/
theorem stripSectionsByHeader_exact_match (A : List (List Char))
    (hdr : List Char) (B : List (List Char)) (skip : Bool) :
    (keepHeaderLine hdr = true →
       ∃ pre post, stripLoop (A ++ hdr :: B) skip =
         pre ++ (hdr :: B.takeWhile nonHeaderLine) ++ post) ∧
    (strippableLine hdr = true →
       stripLoop (A ++ hdr :: B) skip =
         stripLoop (A ++ B.dropWhile nonHeaderLine) skip) := by
  constructor
  · intro hk
    obtain ⟨raw, hraw, hcon⟩ := keepHeaderLine_iff hk
    induction A generalizing skip with
    | nil =>
      rw [List.nil_append, stripLoop_cons_keep B skip hraw hcon,
        stripLoop_false_takeWhile B]
      exact ⟨[], stripLoop (B.dropWhile nonHeaderLine) false, by simp⟩
    | cons a A' ih =>
      rw [List.cons_append]
      cases hna : headerNorm a with
      | none =>
        rw [stripLoop_cons_nonheader _ skip hna]
        cases skip with
        | true =>
          simp only [if_pos rfl]
          exact ih true
        | false =>
          simp only [if_neg (by decide : ¬ (false = true))]
          obtain ⟨pre, post, hpp⟩ := ih false
          exact ⟨a :: pre, post, by rw [hpp]; rfl⟩
      | some raw' =>
        cases hc : STRIPPABLE_SECTION_HEADERS.contains raw' with
        | true =>
          rw [stripLoop_cons_strip _ skip hna hc]
          exact ih true
        | false =>
          rw [stripLoop_cons_keep _ skip hna hc]
          obtain ⟨pre, post, hpp⟩ := ih false
          exact ⟨a :: pre, post, by rw [hpp]; rfl⟩
  · intro hs
    obtain ⟨raw, hraw, hcon⟩ := strippableLine_iff hs
    induction A generalizing skip with
    | nil =>
      rw [List.nil_append, List.nil_append,
        stripLoop_cons_strip B skip hraw hcon, stripLoop_true_dropWhile B]
      exact stripLoop_skip_irrel _
        (by
          rcases dropWhile_head_not nonHeaderLine B with h | ⟨x, xs, hx, hpx⟩
          · exact Or.inl h
          · exact Or.inr ⟨x, xs, hx, hpx⟩) true skip
    | cons a A' ih =>
      rw [List.cons_append, List.cons_append]
      cases hna : headerNorm a with
      | none =>
        rw [stripLoop_cons_nonheader _ skip hna, stripLoop_cons_nonheader _ skip hna]
        cases skip with
        | true =>
          simp only [if_pos rfl]
          exact ih true
        | false =>
          simp only [if_neg (by decide : ¬ (false = true))]
          rw [ih false]
      | some raw' =>
        cases hc : STRIPPABLE_SECTION_HEADERS.contains raw' with
        | true =>
          rw [stripLoop_cons_strip _ skip hna hc, stripLoop_cons_strip _ skip hna hc]
          exact ih true
        | false =>
          rw [stripLoop_cons_keep _ skip hna hc, stripLoop_cons_keep _ skip hna hc]
          rw [ih false]

/-- Witness for C1 (amended): the strippable section `## Tools` is
deleted exactly, leaving the rest of the concrete prompt intact. -/
theorem stripSectionsByHeader_exact_match_witness :
    strippableLine (wchars "## Tools") = true ∧
    stripLoop ([wchars "intro"] ++ wchars "## Tools" ::
        [wchars "gone", wchars "## Keep", wchars "stay"]) false =
      stripLoop ([wchars "intro"] ++
        [wchars "gone", wchars "## Keep",
          wchars "stay"].dropWhile nonHeaderLine) false :=
  ⟨by decide,
   (stripSectionsByHeader_exact_match [wchars "intro"] (wchars "## Tools")
      [wchars "gone", wchars "## Keep", wchars "stay"] false).2 (by decide)⟩

/-- Counterexample for C1 as stated: the prompt
`"## My Rules\nDon't ask permission. Just do it.\nBe bold."` has a
single user-authored section whose normalized header `my rules` is not
in the allow-list, yet its second line does not appear in the T1 output
of `adaptPromptForTier` — the boilerplate-phrase pass removes it, so
surviving section stripping does not mean surviving T1 adaptation. -/
theorem stripSections_survival_counterexample :
    keepHeaderLine (wchars "## My Rules") = true ∧
    (splitNL (wchars "## My Rules\nDon't ask permission. Just do it.\nBe bold.")).contains
      (wchars "Don't ask permission. Just do it.") = true ∧
    (splitNL (t1Output "## My Rules\nDon't ask permission. Just do it.\nBe bold.")).contains
      (wchars "Don't ask permission. Just do it.") = false := by
  refine ⟨by decide, by decide, by decide⟩

/-! ### C2: newline runs in the T1 output -/

lemma tripleGo_cons (c : Char) (rest : List Char) (k : Nat) :
    tripleGo (c :: rest) k =
      if c = '\n' then (decide (3 ≤ k + 1) || tripleGo rest (k + 1))
      else tripleGo rest 0 := rfl

lemma tripleGo_cons_ne {c : Char} (rest : List Char) (k : Nat) (h : ¬ c = '\n') :
    tripleGo (c :: rest) k = tripleGo rest 0 := by
  rw [tripleGo_cons, if_neg h]

lemma tripleGo_cons_nl (rest : List Char) (k : Nat) :
    tripleGo ('\n' :: rest) k = (decide (3 ≤ k + 1) || tripleGo rest (k + 1)) := by
  rw [tripleGo_cons, if_pos rfl]

lemma runEnd_cons (c : Char) (rest : List Char) (k : Nat) :
    runEnd (c :: rest) k = runEnd rest (if c = '\n' then k + 1 else 0) := rfl

lemma tripleGo_mono {l : List Char} {k k' : Nat} (hk : k' ≤ k)
    (h : tripleGo l k' = true) : tripleGo l k = true := by
  induction l generalizing k k' with
  | nil => exact absurd h (by simp [tripleGo])
  | cons c rest ih =>
    by_cases hc : c = '\n'
    · subst hc
      rw [tripleGo_cons_nl] at h ⊢
      rcases Bool.or_eq_true_iff.mp h with h1 | h1
      · simp only [decide_eq_true_eq] at h1
        simp [show (3 : Nat) ≤ k + 1 by omega]
      · rw [ih (by omega : k' + 1 ≤ k + 1) h1]
        simp
    · rw [tripleGo_cons_ne rest _ hc] at h ⊢
      exact h

lemma tripleGo_append (a b : List Char) (k : Nat) :
    tripleGo (a ++ b) k = (tripleGo a k || tripleGo b (runEnd a k)) := by
  induction a generalizing k with
  | nil => simp [tripleGo, runEnd]
  | cons c rest ih =>
    by_cases hc : c = '\n'
    · subst hc
      rw [List.cons_append, tripleGo_cons_nl, tripleGo_cons_nl, ih,
        runEnd_cons]
      simp [Bool.or_assoc]
    · rw [List.cons_append, tripleGo_cons_ne _ _ hc, tripleGo_cons_ne _ _ hc,
        ih, runEnd_cons, if_neg hc]

lemma tripleGo_nlFree {a : List Char} (h : ∀ c ∈ a, ¬ c = '\n') (k : Nat) :
    tripleGo a k = false := by
  induction a generalizing k with
  | nil => rfl
  | cons c rest ih =>
    rw [tripleGo_cons_ne rest k (h c (List.mem_cons_self c rest))]
    exact ih (fun d hd => h d (List.mem_cons_of_mem c hd)) 0

lemma runEnd_nlFree {a : List Char} (h : ∀ c ∈ a, ¬ c = '\n') :
    runEnd a 0 = 0 := by
  induction a with
  | nil => rfl
  | cons c rest ih =>
    rw [runEnd_cons, if_neg (h c (List.mem_cons_self c rest))]
    exact ih (fun d hd => h d (List.mem_cons_of_mem c hd))

lemma hasTripleNL_append_left {a b : List Char} (h : hasTripleNL (a ++ b) = false) :
    hasTripleNL a = false := by
  unfold hasTripleNL at h ⊢
  rw [tripleGo_append] at h
  exact (Bool.or_eq_false_iff.mp h).1

lemma hasTripleNL_append_right {a b : List Char} (h : hasTripleNL (a ++ b) = false) :
    hasTripleNL b = false := by
  unfold hasTripleNL at h ⊢
  rw [tripleGo_append] at h
  cases hb : tripleGo b 0
  · rfl
  · exact absurd ((Bool.or_eq_false_iff.mp h).2)
      (by simp [tripleGo_mono (Nat.zero_le _) hb])

lemma emitNL_le_two (k : Nat) : hasTripleNL (emitNL k) = false := by
  unfold emitNL hasTripleNL
  by_cases h3 : 3 ≤ k
  · rw [if_pos h3]
    decide
  · rw [if_neg h3]
    rcases k with _ | _ | _ | k
    · decide
    · decide
    · decide
    · omega

lemma runEnd_emitNL (k : Nat) : runEnd (emitNL k) 0 ≤ 2 := by
  unfold emitNL
  by_cases h3 : 3 ≤ k
  · rw [if_pos h3]
    decide
  · rw [if_neg h3]
    rcases k with _ | _ | _ | k
    · decide
    · decide
    · decide
    · omega

lemma collapseGo_cons (c : Char) (rest : List Char) (k : Nat) :
    collapseGo (c :: rest) k =
      if c = '\n' then collapseGo rest (k + 1)
      else emitNL k ++ c :: collapseGo rest 0 := rfl

/-- The newline-collapsing pass leaves no run of three newlines. -/
lemma collapseGo_no_triple (l : List Char) : ∀ k, hasTripleNL (collapseGo l k) = false := by
  induction l with
  | nil =>
    intro k
    exact emitNL_le_two k
  | cons c rest ih =>
    intro k
    by_cases hc : c = '\n'
    · rw [collapseGo_cons, if_pos hc]
      exact ih (k + 1)
    · rw [collapseGo_cons, if_neg hc]
      unfold hasTripleNL
      rw [tripleGo_append]
      have h1 : tripleGo (emitNL k) 0 = false := emitNL_le_two k
      rw [h1, Bool.false_or, tripleGo_cons_ne _ _ hc]
      exact ih 0

lemma collapseNewlines_no_triple (l : List Char) :
    hasTripleNL (collapseNewlines l) = false :=
  collapseGo_no_triple l 0

lemma splitNL_cons (c : Char) (rest : List Char) :
    splitNL (c :: rest) =
      if c = '\n' then [] :: splitNL rest
      else
        match splitNL rest with
        | s :: ss => (c :: s) :: ss
        | [] => [[c]] := rfl

lemma splitNL_ne_nil (l : List Char) : splitNL l ≠ [] := by
  cases l with
  | nil => simp [splitNL]
  | cons c rest =>
    rw [splitNL_cons]
    by_cases hc : c = '\n'
    · rw [if_pos hc]
      simp
    · rw [if_neg hc]
      cases h : splitNL rest <;> simp

lemma joinNL_single (s : List Char) : joinNL [s] = s := rfl

lemma joinNL_cons_cons (s t : List Char) (ts : List (List Char)) :
    joinNL (s :: t :: ts) = s ++ '\n' :: joinNL (t :: ts) := rfl

lemma joinNL_splitNL (l : List Char) : joinNL (splitNL l) = l := by
  induction l with
  | nil => rfl
  | cons c rest ih =>
    obtain ⟨s, ss, hss⟩ : ∃ s ss, splitNL rest = s :: ss := by
      cases h : splitNL rest with
      | nil => exact absurd h (splitNL_ne_nil rest)
      | cons s ss => exact ⟨s, ss, rfl⟩
    rw [splitNL_cons]
    by_cases hc : c = '\n'
    · rw [if_pos hc, hss, joinNL_cons_cons, ← hss, ih, hc]
      rfl
    · rw [if_neg hc, hss]
      show joinNL ((c :: s) :: ss) = c :: rest
      cases ss with
      | nil =>
        rw [hss] at ih
        have hs : s = rest := ih
        show c :: s = c :: rest
        rw [hs]
      | cons t ss' =>
        rw [joinNL_cons_cons]
        rw [hss, joinNL_cons_cons] at ih
        rw [List.cons_append, ih]

lemma splitNL_nlFree (l : List Char) :
    ∀ s ∈ splitNL l, ∀ c ∈ s, ¬ c = '\n' := by
  induction l with
  | nil =>
    intro s hs c hc
    simp [splitNL] at hs
    subst hs
    simp at hc
  | cons a rest ih =>
    intro s hs c hc
    obtain ⟨t, ts, hts⟩ : ∃ t ts, splitNL rest = t :: ts := by
      cases h : splitNL rest with
      | nil => exact absurd h (splitNL_ne_nil rest)
      | cons t ts => exact ⟨t, ts, rfl⟩
    rw [splitNL_cons] at hs
    by_cases ha : a = '\n'
    · rw [if_pos ha] at hs
      rcases List.mem_cons.mp hs with h | h
      · subst h
        simp at hc
      · exact ih s h c hc
    · rw [if_neg ha, hts] at hs
      have hs' : s ∈ (a :: t) :: ts := hs
      rcases List.mem_cons.mp hs' with h | h
      · subst h
        rcases List.mem_cons.mp hc with h' | h'
        · subst h'
          exact ha
        · exact ih t (by rw [hts]; exact List.mem_cons_self t ts) c h'
      · exact ih s (by rw [hts]; exact List.mem_cons_of_mem t h) c hc

lemma hip_cons (x : List Char) (rest : List (List Char)) :
    hip (x :: rest) = (pairAfterStart rest || hip rest) := by
  cases rest with
  | nil => rfl
  | cons a rest2 =>
    cases a with
    | cons c0 a' => rfl
    | nil =>
      cases rest2 with
      | nil => rfl
      | cons b rest3 =>
        cases b with
        | cons c1 b' => rfl
        | nil =>
          cases rest3 with
          | nil => rfl
          | cons y rest4 => rfl

lemma pairAfterStart_cons_imp (c : List Char) (rest2 : List (List Char))
    (h : pairAfterStart (c :: rest2) = true) :
    pairAfterStart ([] :: c :: rest2) = true := by
  cases c with
  | cons c0 c' => exact absurd h (by simp [pairAfterStart])
  | nil =>
    cases rest2 with
    | nil => exact absurd h (by simp [pairAfterStart])
    | cons d rest3 =>
      cases d with
      | cons d0 d' => exact absurd h (by simp [pairAfterStart])
      | nil =>
        cases rest3 with
        | nil => exact absurd h (by simp [pairAfterStart])
        | cons z w => rfl

/-- Joint characterisation of `tripleGo` on a `"\n"`-join of
newline-free lines, at starting run lengths 1 and 2. -/
lemma joinNL_triple_aux (ls : List (List Char))
    (h : ∀ s ∈ ls, ∀ c ∈ s, ¬ c = '\n') :
    tripleGo (joinNL ls) 1 = (pairAfterStart ls || hip ls) ∧
    tripleGo (joinNL ls) 2 = (pairAfterStart ([] :: ls) || hip ls) := by
  induction ls with
  | nil => exact ⟨rfl, rfl⟩
  | cons b tail ih =>
    have hb : ∀ c ∈ b, ¬ c = '\n' := h b (List.mem_cons_self b tail)
    have ht : ∀ s ∈ tail, ∀ c ∈ s, ¬ c = '\n' :=
      fun s hs => h s (List.mem_cons_of_mem b hs)
    obtain ⟨ihF, ihG⟩ := ih ht
    cases tail with
    | nil =>
      refine ⟨?_, ?_⟩
      · rw [joinNL_single, tripleGo_nlFree hb]
        cases b <;> rfl
      · rw [joinNL_single, tripleGo_nlFree hb]
        cases b <;> rfl
    | cons c rest2 =>
      rw [joinNL_cons_cons]
      refine ⟨?_, ?_⟩
      · rw [tripleGo_append, tripleGo_nlFree hb, Bool.false_or]
        cases b with
        | nil =>
          rw [show runEnd ([] : List Char) 1 = 1 from rfl, tripleGo_cons_nl]
          simp only [show decide (3 ≤ 1 + 1) = false from rfl, Bool.false_or]
          rw [show (1 : Nat) + 1 = 2 from rfl, ihG,
            hip_cons ([] : List Char) (c :: rest2)]
          cases hq : pairAfterStart (c :: rest2)
          · simp [hq]
          · rw [pairAfterStart_cons_imp c rest2 hq]
            simp
        | cons b0 b' =>
          have hr : runEnd (b0 :: b') 1 = 0 := by
            rw [runEnd_cons, if_neg (hb b0 (List.mem_cons_self b0 b'))]
            exact runEnd_nlFree (fun d hd => hb d (List.mem_cons_of_mem b0 hd))
          rw [hr, tripleGo_cons_nl]
          simp only [show decide (3 ≤ 0 + 1) = false from rfl, Bool.false_or]
          rw [show (0 : Nat) + 1 = 1 from rfl, ihF,
            hip_cons (b0 :: b') (c :: rest2),
            show pairAfterStart ((b0 :: b') :: c :: rest2) = false from rfl]
          simp
      · rw [tripleGo_append, tripleGo_nlFree hb, Bool.false_or]
        cases b with
        | nil =>
          rw [show runEnd ([] : List Char) 2 = 2 from rfl, tripleGo_cons_nl]
          simp only [show decide (3 ≤ 2 + 1) = true from rfl, Bool.true_or]
          rw [show pairAfterStart ([] :: [] :: c :: rest2) = true from rfl]
          simp
        | cons b0 b' =>
          have hr : runEnd (b0 :: b') 2 = 0 := by
            rw [runEnd_cons, if_neg (hb b0 (List.mem_cons_self b0 b'))]
            exact runEnd_nlFree (fun d hd => hb d (List.mem_cons_of_mem b0 hd))
          rw [hr, tripleGo_cons_nl]
          simp only [show decide (3 ≤ 0 + 1) = false from rfl, Bool.false_or]
          rw [show (0 : Nat) + 1 = 1 from rfl, ihF,
            show pairAfterStart ([] :: (b0 :: b') :: c :: rest2) = false from rfl,
            hip_cons (b0 :: b') (c :: rest2)]
          simp

/-- On newline-free lines, the join has a triple newline exactly when
the line list has two adjacent empty lines strictly inside it. -/
lemma hasTripleNL_joinNL (ls : List (List Char))
    (h : ∀ s ∈ ls, ∀ c ∈ s, ¬ c = '\n') :
    hasTripleNL (joinNL ls) = hip ls := by
  cases ls with
  | nil => rfl
  | cons b tail =>
    have hb : ∀ c ∈ b, ¬ c = '\n' := h b (List.mem_cons_self b tail)
    have ht : ∀ s ∈ tail, ∀ c ∈ s, ¬ c = '\n' :=
      fun s hs => h s (List.mem_cons_of_mem b hs)
    cases tail with
    | nil =>
      unfold hasTripleNL
      rw [joinNL_single, tripleGo_nlFree hb]
      cases b <;> rfl
    | cons c rest2 =>
      unfold hasTripleNL
      rw [joinNL_cons_cons, tripleGo_append, tripleGo_nlFree hb, Bool.false_or,
        runEnd_nlFree hb, tripleGo_cons_nl]
      simp only [show decide (3 ≤ 0 + 1) = false from rfl, Bool.false_or]
      rw [show (0 : Nat) + 1 = 1 from rfl, (joinNL_triple_aux (c :: rest2) ht).1,
        hip_cons b (c :: rest2)]

lemma pairAfterStart_shape (ls : List (List Char)) (h : pairAfterStart ls = true) :
    ∃ z w, ls = [] :: [] :: z :: w := by
  cases ls with
  | nil => exact absurd h (by simp [pairAfterStart])
  | cons a rest =>
    cases a with
    | cons a0 a' => exact absurd h (by simp [pairAfterStart])
    | nil =>
      cases rest with
      | nil => exact absurd h (by simp [pairAfterStart])
      | cons b rest2 =>
        cases b with
        | cons b0 b' => exact absurd h (by simp [pairAfterStart])
        | nil =>
          cases rest2 with
          | nil => exact absurd h (by simp [pairAfterStart])
          | cons z w => exact ⟨z, w, rfl⟩

lemma extractLoop_cons (line : List Char) (rest : List (List Char))
    (inKeep : Bool) (sc : Nat) :
    extractLoop (line :: rest) inKeep sc =
      if isHeaderLineEC line then
        (if (decide (sc + 1 ≤ 1) || isCoreTopic line) then
          line :: extractLoop rest (decide (sc + 1 ≤ 1) || isCoreTopic line) (sc + 1)
        else extractLoop rest (decide (sc + 1 ≤ 1) || isCoreTopic line) (sc + 1))
      else
        (if inKeep then line :: extractLoop rest inKeep sc
         else extractLoop rest inKeep sc) := rfl

lemma extractLoop_skip_head (ls : List (List Char)) :
    ∀ c x xs, extractLoop ls false c = x :: xs → isHeaderLineEC x = true := by
  induction ls with
  | nil =>
    intro c x xs h
    rw [show extractLoop [] false c = [] from rfl] at h
    exact absurd h (by simp)
  | cons line rest ih =>
    intro c x xs h
    rw [extractLoop_cons] at h
    by_cases hl : isHeaderLineEC line = true
    · rw [if_pos hl] at h
      cases hk : (decide (c + 1 ≤ 1) || isCoreTopic line)
      · rw [if_neg (by rw [hk]; exact Bool.false_ne_true)] at h
        rw [hk] at h
        exact ih (c + 1) x xs h
      · rw [if_pos hk] at h
        injection h with h1 h2
        rw [← h1]
        exact hl
    · rw [if_neg hl, if_neg Bool.false_ne_true] at h
      exact ih c x xs h

lemma extractLoop_keep_head (ls : List (List Char)) (c : Nat)
    (xs : List (List Char)) (h : extractLoop ls true c = [] :: xs) :
    ∃ rest', ls = [] :: rest' ∧ xs = extractLoop rest' true c := by
  cases ls with
  | nil =>
    rw [show extractLoop [] true c = [] from rfl] at h
    exact absurd h (by simp)
  | cons line rest =>
    rw [extractLoop_cons] at h
    by_cases hl : isHeaderLineEC line = true
    · rw [if_pos hl] at h
      cases hk : (decide (c + 1 ≤ 1) || isCoreTopic line)
      · rw [if_neg (by rw [hk]; exact Bool.false_ne_true), hk] at h
        have := extractLoop_skip_head rest (c + 1) [] xs h
        exact absurd this (by decide)
      · rw [if_pos hk] at h
        injection h with h1 h2
        rw [h1] at hl
        exact absurd hl (by decide)
    · rw [if_neg hl, if_pos rfl] at h
      injection h with h1 h2
      subst h1
      exact ⟨rest, rfl, h2.symm⟩

lemma extractLoop_mem (ls : List (List Char)) :
    ∀ k c x, x ∈ extractLoop ls k c → x ∈ ls := by
  induction ls with
  | nil =>
    intro k c x h
    rw [show extractLoop [] k c = [] from rfl] at h
    exact absurd h (by simp)
  | cons line rest ih =>
    intro k c x h
    rw [extractLoop_cons] at h
    by_cases hl : isHeaderLineEC line = true
    · rw [if_pos hl] at h
      cases hk : (decide (c + 1 ≤ 1) || isCoreTopic line)
      · rw [if_neg (by rw [hk]; exact Bool.false_ne_true)] at h
        exact List.mem_cons_of_mem line (ih _ _ x h)
      · rw [if_pos hk] at h
        rcases List.mem_cons.mp h with h1 | h1
        · rw [h1]; exact List.mem_cons_self line rest
        · exact List.mem_cons_of_mem line (ih _ _ x h1)
    · rw [if_neg hl] at h
      cases k
      · rw [if_neg Bool.false_ne_true] at h
        exact List.mem_cons_of_mem line (ih _ _ x h)
      · rw [if_pos rfl] at h
        rcases List.mem_cons.mp h with h1 | h1
        · rw [h1]; exact List.mem_cons_self line rest
        · exact List.mem_cons_of_mem line (ih _ _ x h1)

lemma extractLoop_keep_pairAfterStart (rest : List (List Char)) (c : Nat)
    (hp : pairAfterStart rest = false) :
    pairAfterStart (extractLoop rest true c) = false := by
  cases hq : pairAfterStart (extractLoop rest true c) with
  | false => rfl
  | true =>
    obtain ⟨z, w, hzw⟩ := pairAfterStart_shape _ hq
    obtain ⟨rest2, hr2, hx2⟩ := extractLoop_keep_head rest c ([] :: z :: w) hzw
    obtain ⟨rest3, hr3, hx3⟩ := extractLoop_keep_head rest2 c (z :: w) hx2.symm
    cases rest3 with
    | nil =>
      rw [show extractLoop [] true c = [] from rfl] at hx3
      exact absurd hx3 (by simp)
    | cons u rest4 =>
      rw [hr2, hr3] at hp
      rw [show pairAfterStart ([] :: [] :: u :: rest4) = true from rfl] at hp
      exact absurd hp (by simp)

/-- `extractCorePersona`'s line filter never creates two adjacent empty
lines strictly inside the list when the input had none. -/
lemma extractLoop_hip (ls : List (List Char)) (h : hip ls = false) :
    ∀ k c, hip (extractLoop ls k c) = false := by
  induction ls with
  | nil => intro k c; rfl
  | cons line rest ih =>
    have hp : pairAfterStart rest = false ∧ hip rest = false := by
      rw [hip_cons] at h
      exact Bool.or_eq_false_iff.mp h
    intro k c
    rw [extractLoop_cons]
    by_cases hl : isHeaderLineEC line = true
    · rw [if_pos hl]
      cases hk : (decide (c + 1 ≤ 1) || isCoreTopic line)
      · rw [if_neg Bool.false_ne_true]
        exact ih hp.2 false (c + 1)
      · rw [if_pos rfl, hip_cons]
        refine Bool.or_eq_false_iff.mpr ⟨?_, ih hp.2 true (c + 1)⟩
        exact extractLoop_keep_pairAfterStart rest (c + 1) hp.1
    · rw [if_neg hl]
      cases k
      · rw [if_neg Bool.false_ne_true]
        exact ih hp.2 false c
      · rw [if_pos rfl, hip_cons]
        refine Bool.or_eq_false_iff.mpr ⟨?_, ih hp.2 true c⟩
        exact extractLoop_keep_pairAfterStart rest c hp.1

lemma dropWhile_head_false (p : Char → Bool) :
    ∀ (l : List Char) x xs, l.dropWhile p = x :: xs → p x = false := by
  intro l
  induction l with
  | nil =>
    intro x xs h
    simp at h
  | cons c rest ih =>
    intro x xs h
    rw [List.dropWhile_cons] at h
    by_cases hp : p c = true
    · rw [if_pos hp] at h
      exact ih x xs h
    · rw [if_neg hp] at h
      injection h with h1 h2
      rw [← h1]
      exact Bool.not_eq_true _ |>.mp hp

lemma dropTrailWhile_prefix (p : Char → Bool) (l : List Char) :
    ∃ b, dropTrailWhile p l ++ b = l := by
  refine ⟨(l.reverse.takeWhile p).reverse, ?_⟩
  unfold dropTrailWhile
  rw [← List.reverse_append, List.takeWhile_append_dropWhile, List.reverse_reverse]

lemma dropTrailWhile_last (p : Char → Bool) (l : List Char) :
    dropTrailWhile p l = [] ∨
      ∃ l' cl, dropTrailWhile p l = l' ++ [cl] ∧ p cl = false := by
  unfold dropTrailWhile
  cases hd : l.reverse.dropWhile p with
  | nil => left; rfl
  | cons x xs =>
    right
    refine ⟨xs.reverse, x, ?_, dropWhile_head_false p l.reverse x xs hd⟩
    rw [List.reverse_cons]

lemma runEnd_append (a b : List Char) (k : Nat) :
    runEnd (a ++ b) k = runEnd b (runEnd a k) := by
  induction a generalizing k with
  | nil => rfl
  | cons c rest ih =>
    rw [List.cons_append, runEnd_cons, runEnd_cons, ih]

lemma hasTripleNL_dropWhile {l : List Char} (p : Char → Bool)
    (h : hasTripleNL l = false) : hasTripleNL (l.dropWhile p) = false := by
  have hh : hasTripleNL (l.takeWhile p ++ l.dropWhile p) = false := by
    rw [List.takeWhile_append_dropWhile]
    exact h
  exact hasTripleNL_append_right hh

lemma hasTripleNL_dropTrail {l : List Char} (p : Char → Bool)
    (h : hasTripleNL l = false) : hasTripleNL (dropTrailWhile p l) = false := by
  obtain ⟨b, hb⟩ := dropTrailWhile_prefix p l
  have hh : hasTripleNL (dropTrailWhile p l ++ b) = false := by
    rw [hb]
    exact h
  exact hasTripleNL_append_left hh

lemma hasTripleNL_trimL {l : List Char} (h : hasTripleNL l = false) :
    hasTripleNL (trimL l) = false := by
  unfold trimL
  exact hasTripleNL_dropTrail _ (hasTripleNL_dropWhile _ h)

/-- Appending the T1 format constraint after `trimEnd` cannot create a
triple-newline run. -/
lemma hasTripleNL_trimEnd_constraint (a : List Char)
    (ha : hasTripleNL a = false) :
    hasTripleNL (trimEndL a ++ formatConstraint) = false := by
  have hta : hasTripleNL (trimEndL a) = false := by
    unfold trimEndL
    exact hasTripleNL_dropTrail _ ha
  have hre : runEnd (trimEndL a) 0 = 0 := by
    rcases dropTrailWhile_last isJsSpace a with h0 | ⟨l', cl, heq, hcl⟩
    · unfold trimEndL
      rw [h0]
      rfl
    · unfold trimEndL
      rw [heq, runEnd_append]
      have hne : ¬ cl = '\n' := by
        intro hc
        rw [hc] at hcl
        exact absurd hcl (by decide)
      rw [show runEnd [cl] (runEnd l' 0) =
            if cl = '\n' then runEnd l' 0 + 1 else 0 from rfl, if_neg hne]
  unfold hasTripleNL
  rw [tripleGo_append, hre]
  unfold hasTripleNL at hta
  rw [hta, Bool.false_or]
  exact (by decide : tripleGo formatConstraint 0 = false)

/-- `extractCorePersona` preserves freedom from triple newlines. -/
lemma extractCorePersona_no_triple (l : List Char)
    (h : hasTripleNL l = false) :
    hasTripleNL (extractCorePersona l) = false := by
  unfold extractCorePersona
  apply hasTripleNL_trimL
  have hnl := splitNL_nlFree l
  have hnl' : ∀ s ∈ extractLoop (splitNL l) true 0, ∀ c ∈ s, ¬ c = '\n' :=
    fun s hs => hnl s (extractLoop_mem _ _ _ s hs)
  rw [hasTripleNL_joinNL _ hnl']
  apply extractLoop_hip
  have hj := hasTripleNL_joinNL (splitNL l) hnl
  rw [joinNL_splitNL] at hj
  rw [← hj]
  exact h

/-- Counterexample for C10 as stated: `" "` is a non-empty message
consisting only of ASCII digits and whitespace (vacuously no digits),
yet `classifyIntent` returns confidence 1.0 with reason
`"empty message"`, not confidence 0.95 with reason
`"trivial pattern match"`. -/
theorem classifyIntent_digits_counterexample :
    (" " : String) ≠ "" ∧
    (∀ c ∈ (" " : String).data, isAsciiDigit c = true ∨ isJsSpace c = true) ∧
    (classifyIntent " ").reason = "empty message" ∧
    (classifyIntent " ").confidence = 1 ∧
    (classifyIntent " ").reason ≠ "trivial pattern match" ∧
    (classifyIntent " ").confidence ≠ mkRat 19 20 := by
  refine ⟨by decide, by decide, by decide, by decide, by decide, by decide⟩

lemma t1Output_eq (prompt : String) :
    t1Output prompt =
      trimEndL (if 3200 <
          (collapseNewlines (stripBoilerplate (stripSectionsByHeader prompt.data))).length
        then extractCorePersona
          (collapseNewlines (stripBoilerplate (stripSectionsByHeader prompt.data)))
        else collapseNewlines (stripBoilerplate (stripSectionsByHeader prompt.data)))
        ++ formatConstraint := rfl

/-- C2 (corrected): for every input system prompt the T1-adapted output
of `adaptPromptForTier` contains no run of three or more consecutive
newline characters, and the T1 adaptation of the repository's sample
system prompt contains none of the five listed substrings; the
substring absences do not hold for every prompt (see the
counterexample), only the newline property is universal. -/
theorem t1Output_no_triple_and_sample_clean :
    (∀ prompt : String, hasTripleNL (t1Output prompt) = false) ∧
    (containsLit (t1Output samplePrompt) (wchars "## Tools") = false ∧
     containsLit (t1Output samplePrompt) (wchars "## Heartbeats") = false ∧
     containsLit (t1Output samplePrompt) (wchars "## Group Chats") = false ∧
     containsLit (t1Output samplePrompt) (wchars "## React Like a Human") = false ∧
     containsLit (t1Output samplePrompt)
       (wchars "Don't ask permission. Just do it.") = false) := by
  refine ⟨fun prompt => ?_, by decide, by decide, by decide, by decide, by decide⟩
  rw [t1Output_eq]
  apply hasTripleNL_trimEnd_constraint
  by_cases hlen : 3200 <
      (collapseNewlines (stripBoilerplate (stripSectionsByHeader prompt.data))).length
  · rw [if_pos hlen]
    exact extractCorePersona_no_triple _ (collapseNewlines_no_triple _)
  · rw [if_neg hlen]
    exact collapseNewlines_no_triple _

/-- Counterexample for C2 as stated: the substring exclusions are not
universal over prompts.  The prompt `"## Toolsmith"` is a user-authored
header that is not in the strip list (its normalized header is
`"toolsmith"`), yet its T1 output contains the banned substring
`"## Tools"` as a prefix of the surviving header line. -/
theorem t1Output_substring_counterexample :
    containsLit (t1Output "## Toolsmith") (wchars "## Tools") = true := by
  decide

end MoltbotClipai
